import Mathlib

/-!
Verification of the rfr flight-recorder core against its specification.

The Rust sources are shallowly embedded: `u64`/`u32`/`usize` values are
modelled as `Nat` (Rust `saturating_sub` on unsigned integers coincides with
truncated `Nat` subtraction; explicit `% 2 ^ 64` is used where Rust shift
operations discard high bits).  Serialized byte buffers (postcard encodings
appended to a `Vec<u8>`) are modelled as lists of the encoded values, which is
faithful because the encoder is deterministic and the buffers are only ever
appended to.
-/

namespace Rfr

/-- Absolute timestamp since the Unix epoch, from `rfr/src/rec.rs`
(`AbsTimestamp { secs: u64, subsec_micros: u32 }`). -/
structure AbsTimestamp where
  secs : Nat
  subsec_micros : Nat
  deriving Repr, DecidableEq

/-- Lexicographic comparison from `impl Ord for AbsTimestamp` in
`rfr/src/rec.rs`: compare `secs`, then `subsec_micros`. -/
def AbsTimestamp.cmp (a b : AbsTimestamp) : Ordering :=
  match compare a.secs b.secs with
  | Ordering.eq => compare a.subsec_micros b.subsec_micros
  | other => other

/-- Order on absolute timestamps: `a ≤ b` derived from `AbsTimestamp.cmp`. -/
def AbsTimestamp.le (a b : AbsTimestamp) : Prop :=
  a.cmp b ≠ Ordering.gt

/-- Strict order on absolute timestamps derived from `AbsTimestamp.cmp`. -/
def AbsTimestamp.lt (a b : AbsTimestamp) : Prop :=
  a.cmp b = Ordering.lt

instance (a b : AbsTimestamp) : Decidable (a.le b) := by
  unfold AbsTimestamp.le; infer_instance

instance (a b : AbsTimestamp) : Decidable (a.lt b) := by
  unfold AbsTimestamp.lt; infer_instance

/-- Whole-second absolute timestamp, from `rfr/src/chunked/mod.rs`
(`AbsTimestampSecs { secs: u64 }`). -/
structure AbsTimestampSecs where
  secs : Nat
  deriving Repr, DecidableEq

/-- Conversion `AbsTimestampSecs::from(AbsTimestamp)`: keep the whole
seconds. -/
def AbsTimestampSecs.ofAbs (t : AbsTimestamp) : AbsTimestampSecs :=
  ⟨t.secs⟩

/-- Chunk-relative timestamp, from `rfr/src/chunked/mod.rs`
(`ChunkTimestamp { micros: u64 }`). -/
structure ChunkTimestamp where
  micros : Nat
  deriving Repr, DecidableEq

/-- `ChunkTimestamp::from_base_and_timestamp` in `rfr/src/chunked/mod.rs`:
`secs = timestamp.secs.saturating_sub(base_time.secs)` and
`micros = secs * 1_000_000 + timestamp.subsec_micros`. -/
def ChunkTimestamp.fromBaseAndTimestamp (base : AbsTimestampSecs)
    (timestamp : AbsTimestamp) : ChunkTimestamp :=
  ⟨(timestamp.secs - base.secs) * 1000000 + timestamp.subsec_micros⟩

/-- Free function `abs_timestamp` in `rfr/src/chunked/mod.rs`: split the
chunk-relative microseconds into whole seconds and sub-second micros and add
the base. -/
def absTimestamp (base : AbsTimestampSecs) (ct : ChunkTimestamp) :
    AbsTimestamp :=
  ⟨base.secs + ct.micros / 1000000, ct.micros % 1000000⟩

/-- `ChunkTimestamp::to_abs_timestamp`, which delegates to `abs_timestamp`. -/
def ChunkTimestamp.toAbsTimestamp (ct : ChunkTimestamp)
    (base : AbsTimestampSecs) : AbsTimestamp :=
  absTimestamp base ct

/-- Chunk interval, from `rfr/src/chunked/mod.rs` (`ChunkInterval`). -/
structure ChunkInterval where
  base_time : AbsTimestampSecs
  start_time : ChunkTimestamp
  end_time : ChunkTimestamp
  deriving Repr, DecidableEq

/-- `ChunkInterval::from_timestamp_and_period` in `rfr/src/chunked/mod.rs`.
For `period_micros > 1_000_000` the base is the seconds aligned down to a
multiple of `period_micros / 1_000_000` and the start offset is zero;
otherwise the base is the whole-second floor and the start offset is the
sub-second micros aligned down to the period.  The end is always
`start + period`. -/
def ChunkInterval.fromTimestampAndPeriod (timestamp : AbsTimestamp)
    (period_micros : Nat) : ChunkInterval :=
  if period_micros > 1000000 then
    { base_time := ⟨timestamp.secs - timestamp.secs % (period_micros / 1000000)⟩
      start_time := ⟨0⟩
      end_time := ⟨0 + period_micros⟩ }
  else
    { base_time := AbsTimestampSecs.ofAbs timestamp
      start_time :=
        ⟨timestamp.subsec_micros - timestamp.subsec_micros % period_micros⟩
      end_time :=
        ⟨(timestamp.subsec_micros - timestamp.subsec_micros % period_micros) +
          period_micros⟩ }

/-- `ChunkInterval::abs_start_time`. -/
def ChunkInterval.absStartTime (i : ChunkInterval) : AbsTimestamp :=
  i.start_time.toAbsTimestamp i.base_time

/-- `ChunkInterval::abs_end_time`. -/
def ChunkInterval.absEndTime (i : ChunkInterval) : AbsTimestamp :=
  i.end_time.toAbsTimestamp i.base_time

/-- Format variant, from `rfr/src/identifier.rs`. -/
inductive FormatVariant where
  | rfrStreaming
  | rfrChunked
  deriving Repr, DecidableEq

/-- Format identifier, from `rfr/src/identifier.rs`
(`FormatIdentifier { variant, major: u32, minor: u32, patch: u32 }`). -/
structure FormatIdentifier where
  variant : FormatVariant
  major : Nat
  minor : Nat
  patch : Nat
  deriving Repr, DecidableEq

/-- `FormatIdentifier::can_read_version` in `rfr/src/identifier.rs`,
translated with the early returns folded into an if-chain.  After the
pre-1.0.0 block fails its `current.patch >= version.patch` test, control in
the source falls through to the shared `current.minor >= version.minor`
test; that continuation is duplicated into the `major = 0` branch here. -/
def FormatIdentifier.canReadVersion (current version : FormatIdentifier) :
    Bool :=
  if current.variant ≠ version.variant then false
  else if current.major ≠ version.major then false
  else if current.major = 0 then
    if current.minor ≠ version.minor then false
    else if current.minor = 0 ∧ current.patch ≠ version.patch then false
    else if current.patch ≥ version.patch then true
    else if current.minor ≥ version.minor then true
    else false
  else if current.minor ≥ version.minor then true
  else false

/-- Compatibility predicate exactly as the claim states it: same variant,
same major; same minor when major is zero; same patch when major and minor
are zero; and the reader's remaining `(minor, patch)` components at least
the writer's (lexicographically). -/
def canReadSpecClaim (reader writer : FormatIdentifier) : Prop :=
  reader.variant = writer.variant ∧
  reader.major = writer.major ∧
  (reader.major = 0 → reader.minor = writer.minor) ∧
  (reader.major = 0 ∧ reader.minor = 0 → reader.patch = writer.patch) ∧
  (writer.minor < reader.minor ∨
    (writer.minor = reader.minor ∧ writer.patch ≤ reader.patch))

instance (r w : FormatIdentifier) : Decidable (canReadSpecClaim r w) := by
  unfold canReadSpecClaim; infer_instance

/-- Compatibility predicate as amended: the patch component is never
compared by `≥`; for nonzero major only the minors are compared. -/
def canReadSpecAmended (reader writer : FormatIdentifier) : Prop :=
  reader.variant = writer.variant ∧
  reader.major = writer.major ∧
  (reader.major = 0 → reader.minor = writer.minor) ∧
  (reader.major = 0 ∧ reader.minor = 0 → reader.patch = writer.patch) ∧
  (reader.major ≠ 0 → writer.minor ≤ reader.minor)

instance (r w : FormatIdentifier) : Decidable (canReadSpecAmended r w) := by
  unfold canReadSpecAmended; infer_instance

lemma AbsTimestamp.le_def (a b : AbsTimestamp) :
    a.le b ↔ a.secs < b.secs ∨
      (a.secs = b.secs ∧ a.subsec_micros ≤ b.subsec_micros) := by
  unfold AbsTimestamp.le AbsTimestamp.cmp
  rcases Nat.lt_trichotomy a.secs b.secs with h | h | h
  · simp [Nat.compare_eq_lt.mpr h, h]
  · have : compare a.secs b.secs = Ordering.eq := Nat.compare_eq_eq.mpr h
    simp only [this]
    constructor
    · intro hne
      right
      refine ⟨h, ?_⟩
      by_contra hlt
      exact hne (Nat.compare_eq_gt.mpr (by omega))
    · rintro (hlt | ⟨_, hle⟩)
      · omega
      · intro hgt
        have := Nat.compare_eq_gt.mp hgt
        omega
  · have : compare a.secs b.secs = Ordering.gt := Nat.compare_eq_gt.mpr h
    simp only [this]
    constructor
    · intro hne; exact absurd rfl hne
    · rintro (hlt | ⟨heq, _⟩) <;> omega

lemma AbsTimestamp.lt_def (a b : AbsTimestamp) :
    a.lt b ↔ a.secs < b.secs ∨
      (a.secs = b.secs ∧ a.subsec_micros < b.subsec_micros) := by
  unfold AbsTimestamp.lt AbsTimestamp.cmp
  rcases Nat.lt_trichotomy a.secs b.secs with h | h | h
  · simp [Nat.compare_eq_lt.mpr h, h]
  · have : compare a.secs b.secs = Ordering.eq := Nat.compare_eq_eq.mpr h
    simp only [this]
    constructor
    · intro hlt
      exact Or.inr ⟨h, Nat.compare_eq_lt.mp hlt⟩
    · rintro (hlt | ⟨_, hlt⟩)
      · omega
      · exact Nat.compare_eq_lt.mpr hlt
  · have : compare a.secs b.secs = Ordering.gt := Nat.compare_eq_gt.mpr h
    simp only [this]
    constructor
    · intro h'; cases h'
    · rintro (hlt | ⟨heq, _⟩) <;> omega

/-- Instrumentation id, a newtype over `u64` in `rfr/src/common.rs`. -/
abbrev InstrumentationId := Nat

/-- Callsite id, a newtype over `u64` in `rfr/src/chunked/callsite.rs`. -/
abbrev CallsiteId := Nat

/-- Runtime task id, a newtype over `u64` in `rfr/src/common.rs`. -/
abbrev TaskId := Nat

/-- Sequence id, a newtype over `u64` in `rfr/src/chunked/sequence.rs`. -/
abbrev SeqId := Nat

/-- Task kind, from `rfr/src/common.rs` (`TaskKind`); `localTask` models the
`Local` variant. -/
inductive TaskKind where
  | task
  | localTask
  | blocking
  | blockOn
  | other (s : String)
  deriving Repr, DecidableEq

/-- Task object, from `rfr/src/common.rs` (`Task`). -/
structure Task where
  iid : InstrumentationId
  callsite_id : CallsiteId
  task_id : TaskId
  task_name : String
  task_kind : TaskKind
  context : Option InstrumentationId
  deriving Repr, DecidableEq

/-- Waker data, from `rfr/src/common.rs` (`Waker`). -/
structure Waker where
  task_iid : InstrumentationId
  context : Option InstrumentationId
  deriving Repr, DecidableEq

/-- Span/event parent, from `rfr/src/common.rs` (`Parent`). -/
inductive Parent where
  | current
  | root
  | explicit (iid : InstrumentationId)
  deriving Repr

/-- Field value, from `rfr/src/common.rs` (`FieldValue`); the `F64` payload
is modelled by Lean's `Float`. -/
inductive FieldValue where
  | f64 (v : Float)
  | i64 (v : Int)
  | u64 (v : Nat)
  | i128 (v : Int)
  | u128 (v : Nat)
  | bool (v : Bool)
  | str (v : String)
  deriving Repr

/-- Named field, from `rfr/src/common.rs` (`Field`, `FieldName`). -/
structure Field where
  name : String
  value : FieldValue
  deriving Repr

/-- Event object, from `rfr/src/common.rs` (`Event`). -/
structure Event where
  callsite_id : CallsiteId
  parent : Parent
  split_field_values : List FieldValue
  dynamic_fields : List Field
  deriving Repr

/-- Span object, from `rfr/src/common.rs` (`Span`). -/
structure Span where
  iid : InstrumentationId
  callsite_id : CallsiteId
  parent : Parent
  split_field_values : List FieldValue
  dynamic_fields : List Field
  deriving Repr

/-- Referenced object, from `rfr/src/chunked/mod.rs` (`Object`). -/
inductive Object where
  | span (s : Span)
  | task (t : Task)
  deriving Repr

/-- Record metadata, from `rfr/src/chunked/record.rs` (`Meta`). -/
structure Meta where
  timestamp : ChunkTimestamp
  deriving Repr

/-- Record payload, from `rfr/src/chunked/record.rs` (`RecordData`). -/
inductive RecordData where
  | spanNew (iid : InstrumentationId)
  | spanEnter (iid : InstrumentationId)
  | spanExit (iid : InstrumentationId)
  | spanClose (iid : InstrumentationId)
  | event (event : Event)
  | taskNew (iid : InstrumentationId)
  | taskPollStart (iid : InstrumentationId)
  | taskPollEnd (iid : InstrumentationId)
  | taskDrop (iid : InstrumentationId)
  | wakerWake (waker : Waker)
  | wakerWakeByRef (waker : Waker)
  | wakerClone (waker : Waker)
  | wakerDrop (waker : Waker)
  deriving Repr

/-- Timestamped record, from `rfr/src/chunked/record.rs` (`Record`). -/
structure Record where
  meta : Meta
  data : RecordData
  deriving Repr

/-- Sequence chunk header, from `rfr/src/chunked/sequence.rs`
(`SeqChunkHeader`). -/
structure SeqChunkHeader where
  seq_id : SeqId
  earliest_timestamp : ChunkTimestamp
  latest_timestamp : ChunkTimestamp
  deriving Repr, DecidableEq

/-- Mutable interior of a sequence chunk buffer, from
`rfr/src/chunked/sequence.rs` (`struct Buffer`).  The `objects` hash map
from iid to the postcard encoding of the object is modelled as an
association list from iid to the object itself; `missing_objects` (a hash
set) as a duplicate-free list; the `records` byte vector as the list of the
records appended to it. -/
structure Buffer where
  header : SeqChunkHeader
  objects : List (InstrumentationId × Object)
  missing_objects : List InstrumentationId
  record_count : Nat
  records : List Record
  deriving Repr

/-- Resolver callback type: `FnOnce(&[InstrumentationId]) ->
Vec<Option<Object>>` from `SeqChunkBuffer::append_record`. -/
def Resolver := List InstrumentationId → List (Option Object)

/-- `SeqChunkBuffer::new` in `rfr/src/chunked/sequence.rs`: a fresh buffer
has `earliest_timestamp = interval.end_time` and `latest_timestamp =
interval.start_time`.  The thread-local `SeqId::current()` is passed in as
a parameter. -/
def SeqChunkBuffer.newBuffer (seq_id : SeqId) (interval : ChunkInterval) :
    Buffer :=
  { header :=
      { seq_id := seq_id
        earliest_timestamp := interval.end_time
        latest_timestamp := interval.start_time }
    objects := []
    missing_objects := []
    record_count := 0
    records := [] }

/-- Lookup in the modelled `objects` map (first entry with the key). -/
def objectsLookup : List (InstrumentationId × Object) → InstrumentationId →
    Option Object
  | [], _ => none
  | p :: rest, i => if p.1 = i then some p.2 else objectsLookup rest i

/-- `HashMap::contains_key` on the modelled `objects` map. -/
def objectsContainsKey (m : List (InstrumentationId × Object))
    (i : InstrumentationId) : Bool :=
  (objectsLookup m i).isSome

/-- `HashMap::insert` on the modelled `objects` map: replace the entry with
the key if present, otherwise add one. -/
def objectsInsert : List (InstrumentationId × Object) → InstrumentationId →
    Object → List (InstrumentationId × Object)
  | [], i, o => [(i, o)]
  | p :: rest, i, o =>
      if p.1 = i then (i, o) :: rest else p :: objectsInsert rest i o

/-- `HashSet::insert` on the modelled `missing_objects` set. -/
def missingInsert (s : List InstrumentationId) (i : InstrumentationId) :
    List InstrumentationId :=
  if i ∈ s then s else s ++ [i]

/-- The `missing_task_ids` list computed by the big `match` at the start of
`SeqChunkBuffer::append_record`: referenced iids not already present in
`objects`.  For waker records the context iid is only added when it differs
from the task iid; span and event records reference nothing (the source
marks them TODO). -/
def missingTaskIds (objects : List (InstrumentationId × Object)) :
    RecordData → List InstrumentationId
  | RecordData.taskNew iid
  | RecordData.taskPollStart iid
  | RecordData.taskPollEnd iid
  | RecordData.taskDrop iid =>
      if objectsContainsKey objects iid then [] else [iid]
  | RecordData.wakerWake waker
  | RecordData.wakerWakeByRef waker
  | RecordData.wakerClone waker
  | RecordData.wakerDrop waker =>
      (if objectsContainsKey objects waker.task_iid then []
       else [waker.task_iid]) ++
      (match waker.context with
       | some c =>
           if c ≠ waker.task_iid ∧ ¬ objectsContainsKey objects c then [c]
           else []
       | none => [])
  | RecordData.spanNew _ | RecordData.spanEnter _ | RecordData.spanExit _
  | RecordData.spanClose _ | RecordData.event _ => []

/-- The set of iids a record references (the same match as `missingTaskIds`
without the `objects` filter). -/
def referencedIids : RecordData → List InstrumentationId
  | RecordData.taskNew iid
  | RecordData.taskPollStart iid
  | RecordData.taskPollEnd iid
  | RecordData.taskDrop iid => [iid]
  | RecordData.wakerWake waker
  | RecordData.wakerWakeByRef waker
  | RecordData.wakerClone waker
  | RecordData.wakerDrop waker => waker.task_iid :: waker.context.toList
  | RecordData.spanNew _ | RecordData.spanEnter _ | RecordData.spanExit _
  | RecordData.spanClose _ | RecordData.event _ => []

/-- The `for (task_id, task) in missing_task_ids.zip(missing_tasks)` loop of
`append_record`: insert each `Some` object; on the first `None` record the
iid in `missing_objects` and return early (second component `true`). -/
def processObjects :
    Buffer → List (InstrumentationId × Option Object) → Buffer × Bool
  | buf, [] => (buf, false)
  | buf, (iid, some obj) :: rest =>
      processObjects
        { buf with objects := objectsInsert buf.objects iid obj } rest
  | buf, (iid, none) :: _ =>
      ({ buf with missing_objects := missingInsert buf.missing_objects iid },
        true)

/-- The iid/result pairs the object loop of `append_record` walks:
`missing_task_ids.zip(get_objects(missing_task_ids))` (Rust's `zip`
truncates to the shorter list, as does `List.zip`). -/
def resolverPairs (buf : Buffer) (record : Record) (get_objects : Resolver) :
    List (InstrumentationId × Option Object) :=
  (missingTaskIds buf.objects record.data).zip
    (get_objects (missingTaskIds buf.objects record.data))

/-- `SeqChunkBuffer::append_record` in `rfr/src/chunked/sequence.rs`.  When
the object loop returned early the record is dropped; otherwise the header
timestamps are updated (`earliest` only for the first record, `latest`
unconditionally), the record is appended and the count bumped. -/
def appendRecord (buf : Buffer) (record : Record) (get_objects : Resolver) :
    Buffer :=
  let step := processObjects buf (resolverPairs buf record get_objects)
  if step.2 then step.1
  else
    { step.1 with
      header :=
        { step.1.header with
          earliest_timestamp :=
            if step.1.record_count = 0 then record.meta.timestamp
            else step.1.header.earliest_timestamp
          latest_timestamp := record.meta.timestamp }
      records := step.1.records ++ [record]
      record_count := step.1.record_count + 1 }

/-- Run a list of `append_record` calls in order, collecting for each call
the argument list the resolver callback is invoked with (the resolver is an
`FnOnce` invoked exactly once per append, on `missing_task_ids`). -/
def runAppends : Buffer → List (Record × Resolver) →
    Buffer × List (List InstrumentationId)
  | buf, [] => (buf, [])
  | buf, (record, res) :: rest =>
      let call := missingTaskIds buf.objects record.data
      let next := runAppends (appendRecord buf record res) rest
      (next.1, call :: next.2)

/-- On-disk image of one sequence chunk as produced by
`SeqChunkBuffer::write`: header, the object blobs (map values), the record
count and the record blobs. -/
structure SeqChunkWritten where
  header : SeqChunkHeader
  objects : List Object
  record_count : Nat
  records : List Record
  deriving Repr

/-- `SeqChunkBuffer::write` in `rfr/src/chunked/sequence.rs`, modelled at
the level of the encoded values. -/
def SeqChunkBuffer.write (buf : Buffer) : SeqChunkWritten :=
  { header := buf.header
    objects := buf.objects.map Prod.snd
    record_count := buf.record_count
    records := buf.records }

/-- The first iid whose resolver result is `None` in the object loop. -/
def firstUnresolved (pairs : List (InstrumentationId × Option Object)) :
    Option InstrumentationId :=
  (pairs.find? (fun p => p.2.isNone)).map Prod.fst

lemma objectsLookup_insert_self (m : List (InstrumentationId × Object))
    (i : InstrumentationId) (o : Object) :
    objectsLookup (objectsInsert m i o) i = some o := by
  induction m with
  | nil => simp [objectsInsert, objectsLookup]
  | cons p rest ih =>
      by_cases h : p.1 = i
      · simp [objectsInsert, h, objectsLookup]
      · simp [objectsInsert, h, objectsLookup, ih]

lemma objectsLookup_insert_ne (m : List (InstrumentationId × Object))
    (i j : InstrumentationId) (o : Object) (h : j ≠ i) :
    objectsLookup (objectsInsert m i o) j = objectsLookup m j := by
  have hne : i ≠ j := Ne.symm h
  induction m with
  | nil => simp [objectsInsert, objectsLookup, hne]
  | cons p rest ih =>
      obtain ⟨k, v⟩ := p
      by_cases hk : k = i
      · subst hk
        simp [objectsInsert, objectsLookup, hne]
      · by_cases hj : k = j
        · simp [objectsInsert, hk, objectsLookup, hj, h]
        · simp [objectsInsert, hk, objectsLookup, hj, ih]

lemma objectsContainsKey_insert (m : List (InstrumentationId × Object))
    (i X : InstrumentationId) (o : Object)
    (h : objectsContainsKey m X = true) :
    objectsContainsKey (objectsInsert m i o) X = true := by
  unfold objectsContainsKey at h ⊢
  by_cases hx : X = i
  · subst hx
    rw [objectsLookup_insert_self]
    rfl
  · rw [objectsLookup_insert_ne m i X o hx]
    exact h

lemma mem_missingInsert_self (s : List InstrumentationId)
    (i : InstrumentationId) : i ∈ missingInsert s i := by
  unfold missingInsert
  by_cases h : i ∈ s
  · simpa [h]
  · simp [h]

lemma processObjects_fields (buf : Buffer)
    (pairs : List (InstrumentationId × Option Object)) :
    (processObjects buf pairs).1.record_count = buf.record_count ∧
    (processObjects buf pairs).1.records = buf.records ∧
    (processObjects buf pairs).1.header = buf.header := by
  induction pairs generalizing buf with
  | nil => exact ⟨rfl, rfl, rfl⟩
  | cons p rest ih =>
      match p with
      | (i, some o) => exact ih _
      | (i, none) => exact ⟨rfl, rfl, rfl⟩

lemma processObjects_aborts_iff (buf : Buffer)
    (pairs : List (InstrumentationId × Option Object)) :
    (processObjects buf pairs).2 = true ↔
      pairs.any (fun p => p.2.isNone) = true := by
  induction pairs generalizing buf with
  | nil => simp [processObjects]
  | cons p rest ih =>
      match p with
      | (i, some o) => simp [processObjects, ih]
      | (i, none) => simp [processObjects]

lemma processObjects_missing_first (buf : Buffer)
    (pairs : List (InstrumentationId × Option Object))
    (i : InstrumentationId) (h : firstUnresolved pairs = some i) :
    i ∈ (processObjects buf pairs).1.missing_objects := by
  induction pairs generalizing buf with
  | nil => simp [firstUnresolved] at h
  | cons p rest ih =>
      match p with
      | (j, some o) =>
          have h' : firstUnresolved rest = some i := by
            unfold firstUnresolved at h ⊢
            rw [List.find?_cons] at h
            simpa using h
          exact ih _ h'
      | (j, none) =>
          have hj : j = i := by
            unfold firstUnresolved at h
            rw [List.find?_cons] at h
            simpa using h
          subst hj
          exact mem_missingInsert_self _ _

lemma processObjects_lookup_not_mem (buf : Buffer)
    (pairs : List (InstrumentationId × Option Object))
    (i : InstrumentationId) (h : i ∉ pairs.map Prod.fst) :
    objectsLookup (processObjects buf pairs).1.objects i =
      objectsLookup buf.objects i := by
  induction pairs generalizing buf with
  | nil => rfl
  | cons p rest ih =>
      simp only [List.map_cons, List.mem_cons] at h
      push_neg at h
      match p with
      | (j, some o) =>
          have := ih { buf with objects := objectsInsert buf.objects j o }
            h.2
          simp only [processObjects] at this ⊢
          rw [this]
          exact objectsLookup_insert_ne _ _ _ _ h.1
      | (j, none) => rfl

lemma processObjects_lookup_prefix (buf : Buffer)
    (pairs : List (InstrumentationId × Option Object))
    (hnd : (pairs.map Prod.fst).Nodup)
    (i : InstrumentationId) (o : Object)
    (hmem : (i, some o) ∈ pairs.takeWhile (fun p => p.2.isSome)) :
    objectsLookup (processObjects buf pairs).1.objects i = some o := by
  induction pairs generalizing buf with
  | nil => simp at hmem
  | cons p rest ih =>
      match p with
      | (j, some ob) =>
          simp only [List.takeWhile_cons, Option.isSome_some, if_pos,
            List.mem_cons] at hmem
          simp only [List.map_cons, List.nodup_cons] at hnd
          rcases hmem with heq | hmem
          · have hj : i = j := congrArg Prod.fst heq
            have ho : some o = some ob := congrArg Prod.snd heq
            have ho' : o = ob := by injection ho
            subst hj
            subst ho'
            have hnotin : i ∉ rest.map Prod.fst := hnd.1
            simp only [processObjects]
            rw [processObjects_lookup_not_mem _ _ _ hnotin]
            exact objectsLookup_insert_self _ _ _
          · simp only [processObjects]
            exact ih _ hnd.2 hmem
      | (j, none) =>
          simp at hmem

lemma processObjects_contains_mono (buf : Buffer)
    (pairs : List (InstrumentationId × Option Object))
    (X : InstrumentationId) (h : objectsContainsKey buf.objects X = true) :
    objectsContainsKey (processObjects buf pairs).1.objects X = true := by
  induction pairs generalizing buf with
  | nil => exact h
  | cons p rest ih =>
      match p with
      | (j, some o) =>
          exact ih _ (objectsContainsKey_insert _ _ _ _ h)
      | (j, none) => exact h

lemma bool_false_of_not_true {b : Bool} (h : ¬ b = true) : b = false := by
  cases b
  · rfl
  · exact absurd rfl h

lemma mem_single_missing (objects : List (InstrumentationId × Object))
    (iid X : InstrumentationId)
    (h : X ∈ if objectsContainsKey objects iid = true then [] else [iid]) :
    objectsContainsKey objects X = false := by
  by_cases hc : objectsContainsKey objects iid = true
  · rw [if_pos hc] at h
    simp at h
  · rw [if_neg hc] at h
    simp only [List.mem_singleton] at h
    subst h
    exact bool_false_of_not_true hc

lemma mem_single_missing_of_ref (objects : List (InstrumentationId × Object))
    (X : InstrumentationId)
    (hfalse : objectsContainsKey objects X = false) :
    X ∈ if objectsContainsKey objects X = true then [] else [X] := by
  rw [if_neg (by simp [hfalse])]
  simp

lemma mem_waker_missing_none (objects : List (InstrumentationId × Object))
    (ti X : InstrumentationId)
    (h : X ∈ (if objectsContainsKey objects ti = true then [] else [ti]) ++
      ([] : List InstrumentationId)) :
    objectsContainsKey objects X = false := by
  rcases List.mem_append.mp h with h1 | h1
  · exact mem_single_missing objects ti X h1
  · simp at h1

lemma mem_waker_missing_some (objects : List (InstrumentationId × Object))
    (ti c X : InstrumentationId)
    (h : X ∈ (if objectsContainsKey objects ti = true then [] else [ti]) ++
      (if c ≠ ti ∧ ¬ objectsContainsKey objects c = true then [c]
        else [])) :
    objectsContainsKey objects X = false := by
  rcases List.mem_append.mp h with h1 | h1
  · exact mem_single_missing objects ti X h1
  · by_cases hcond : c ≠ ti ∧ ¬ objectsContainsKey objects c = true
    · rw [if_pos hcond] at h1
      simp only [List.mem_singleton] at h1
      subst h1
      exact bool_false_of_not_true hcond.2
    · rw [if_neg hcond] at h1
      simp at h1

lemma mem_waker_missing_of_ref_some
    (objects : List (InstrumentationId × Object))
    (ti c X : InstrumentationId)
    (href : X = ti ∨ X = c)
    (hfalse : objectsContainsKey objects X = false) :
    X ∈ (if objectsContainsKey objects ti = true then [] else [ti]) ++
      (if c ≠ ti ∧ ¬ objectsContainsKey objects c = true then [c]
        else []) := by
  apply List.mem_append.mpr
  by_cases hct : X = ti
  · subst hct
    exact Or.inl (mem_single_missing_of_ref objects X hfalse)
  · rcases href with rfl | rfl
    · exact absurd rfl hct
    · right
      rw [if_pos ⟨hct, by simp [hfalse]⟩]
      simp

lemma mem_waker_missing_of_ref_none
    (objects : List (InstrumentationId × Object))
    (ti X : InstrumentationId)
    (href : X = ti)
    (hfalse : objectsContainsKey objects X = false) :
    X ∈ (if objectsContainsKey objects ti = true then [] else [ti]) ++
      ([] : List InstrumentationId) := by
  subst href
  exact List.mem_append.mpr
    (Or.inl (mem_single_missing_of_ref objects X hfalse))

lemma mem_missingTaskIds_contains_false
    (objects : List (InstrumentationId × Object)) (d : RecordData)
    (X : InstrumentationId) (h : X ∈ missingTaskIds objects d) :
    objectsContainsKey objects X = false := by
  cases d with
  | taskNew iid => exact mem_single_missing objects iid X h
  | taskPollStart iid => exact mem_single_missing objects iid X h
  | taskPollEnd iid => exact mem_single_missing objects iid X h
  | taskDrop iid => exact mem_single_missing objects iid X h
  | wakerWake w =>
      obtain ⟨ti, ctx⟩ := w
      cases ctx with
      | none => exact mem_waker_missing_none objects ti X h
      | some c => exact mem_waker_missing_some objects ti c X h
  | wakerWakeByRef w =>
      obtain ⟨ti, ctx⟩ := w
      cases ctx with
      | none => exact mem_waker_missing_none objects ti X h
      | some c => exact mem_waker_missing_some objects ti c X h
  | wakerClone w =>
      obtain ⟨ti, ctx⟩ := w
      cases ctx with
      | none => exact mem_waker_missing_none objects ti X h
      | some c => exact mem_waker_missing_some objects ti c X h
  | wakerDrop w =>
      obtain ⟨ti, ctx⟩ := w
      cases ctx with
      | none => exact mem_waker_missing_none objects ti X h
      | some c => exact mem_waker_missing_some objects ti c X h
  | spanNew iid => simp [missingTaskIds] at h
  | spanEnter iid => simp [missingTaskIds] at h
  | spanExit iid => simp [missingTaskIds] at h
  | spanClose iid => simp [missingTaskIds] at h
  | event e => simp [missingTaskIds] at h

lemma mem_missingTaskIds_of_ref
    (objects : List (InstrumentationId × Object)) (d : RecordData)
    (X : InstrumentationId) (href : X ∈ referencedIids d)
    (hfalse : objectsContainsKey objects X = false) :
    X ∈ missingTaskIds objects d := by
  cases d with
  | taskNew iid =>
      obtain rfl : X = iid :=
        List.mem_singleton.mp (show X ∈ [iid] from href)
      exact mem_single_missing_of_ref objects X hfalse
  | taskPollStart iid =>
      obtain rfl : X = iid :=
        List.mem_singleton.mp (show X ∈ [iid] from href)
      exact mem_single_missing_of_ref objects X hfalse
  | taskPollEnd iid =>
      obtain rfl : X = iid :=
        List.mem_singleton.mp (show X ∈ [iid] from href)
      exact mem_single_missing_of_ref objects X hfalse
  | taskDrop iid =>
      obtain rfl : X = iid :=
        List.mem_singleton.mp (show X ∈ [iid] from href)
      exact mem_single_missing_of_ref objects X hfalse
  | wakerWake w =>
      obtain ⟨ti, ctx⟩ := w
      cases ctx with
      | none =>
          exact mem_waker_missing_of_ref_none objects ti X
            (by simpa using (show X ∈ [ti] from href)) hfalse
      | some c =>
          exact mem_waker_missing_of_ref_some objects ti c X
            (by simpa using (show X ∈ [ti, c] from href)) hfalse
  | wakerWakeByRef w =>
      obtain ⟨ti, ctx⟩ := w
      cases ctx with
      | none =>
          exact mem_waker_missing_of_ref_none objects ti X
            (by simpa using (show X ∈ [ti] from href)) hfalse
      | some c =>
          exact mem_waker_missing_of_ref_some objects ti c X
            (by simpa using (show X ∈ [ti, c] from href)) hfalse
  | wakerClone w =>
      obtain ⟨ti, ctx⟩ := w
      cases ctx with
      | none =>
          exact mem_waker_missing_of_ref_none objects ti X
            (by simpa using (show X ∈ [ti] from href)) hfalse
      | some c =>
          exact mem_waker_missing_of_ref_some objects ti c X
            (by simpa using (show X ∈ [ti, c] from href)) hfalse
  | wakerDrop w =>
      obtain ⟨ti, ctx⟩ := w
      cases ctx with
      | none =>
          exact mem_waker_missing_of_ref_none objects ti X
            (by simpa using (show X ∈ [ti] from href)) hfalse
      | some c =>
          exact mem_waker_missing_of_ref_some objects ti c X
            (by simpa using (show X ∈ [ti, c] from href)) hfalse
  | spanNew iid => simp [referencedIids] at href
  | spanEnter iid => simp [referencedIids] at href
  | spanExit iid => simp [referencedIids] at href
  | spanClose iid => simp [referencedIids] at href
  | event e => simp [referencedIids] at href

lemma missingTaskIds_not_mem_of_contains
    (objects : List (InstrumentationId × Object)) (d : RecordData)
    (X : InstrumentationId) (h : objectsContainsKey objects X = true) :
    X ∉ missingTaskIds objects d := by
  intro hmem
  have := mem_missingTaskIds_contains_false objects d X hmem
  rw [h] at this
  cases this

lemma single_missing_nodup (objects : List (InstrumentationId × Object))
    (iid : InstrumentationId) :
    (if objectsContainsKey objects iid = true then []
      else [iid] : List InstrumentationId).Nodup := by
  split <;> simp

lemma waker_missing_nodup_none (objects : List (InstrumentationId × Object))
    (ti : InstrumentationId) :
    ((if objectsContainsKey objects ti = true then [] else [ti]) ++
      ([] : List InstrumentationId)).Nodup := by
  split <;> simp

lemma waker_missing_nodup_some (objects : List (InstrumentationId × Object))
    (ti c : InstrumentationId) :
    ((if objectsContainsKey objects ti = true then [] else [ti]) ++
      (if c ≠ ti ∧ ¬ objectsContainsKey objects c = true then [c]
        else []) : List InstrumentationId).Nodup := by
  by_cases hcond : c ≠ ti ∧ ¬ objectsContainsKey objects c = true
  · rw [if_pos hcond]
    split <;> simp [Ne.symm hcond.1]
  · rw [if_neg hcond]
    split <;> simp

lemma missingTaskIds_nodup (objects : List (InstrumentationId × Object))
    (d : RecordData) : (missingTaskIds objects d).Nodup := by
  cases d with
  | taskNew iid => exact single_missing_nodup objects iid
  | taskPollStart iid => exact single_missing_nodup objects iid
  | taskPollEnd iid => exact single_missing_nodup objects iid
  | taskDrop iid => exact single_missing_nodup objects iid
  | wakerWake w =>
      obtain ⟨ti, ctx⟩ := w
      cases ctx with
      | none => exact waker_missing_nodup_none objects ti
      | some c => exact waker_missing_nodup_some objects ti c
  | wakerWakeByRef w =>
      obtain ⟨ti, ctx⟩ := w
      cases ctx with
      | none => exact waker_missing_nodup_none objects ti
      | some c => exact waker_missing_nodup_some objects ti c
  | wakerClone w =>
      obtain ⟨ti, ctx⟩ := w
      cases ctx with
      | none => exact waker_missing_nodup_none objects ti
      | some c => exact waker_missing_nodup_some objects ti c
  | wakerDrop w =>
      obtain ⟨ti, ctx⟩ := w
      cases ctx with
      | none => exact waker_missing_nodup_none objects ti
      | some c => exact waker_missing_nodup_some objects ti c
  | spanNew iid => simp [missingTaskIds]
  | spanEnter iid => simp [missingTaskIds]
  | spanExit iid => simp [missingTaskIds]
  | spanClose iid => simp [missingTaskIds]
  | event e => simp [missingTaskIds]

lemma map_fst_zip_sublist {α β : Type} (l : List α) (r : List β) :
    ((l.zip r).map Prod.fst).Sublist l := by
  induction l generalizing r with
  | nil => simp
  | cons a l ih =>
      cases r with
      | nil => simp
      | cons b r => simpa using List.Sublist.cons₂ a (ih r)

/-- A one-second interval starting at the epoch, used for concrete runs. -/
def intervalOneSec : ChunkInterval := ⟨⟨0⟩, ⟨0⟩, ⟨1000000⟩⟩

/-- A concrete task object with iid 1. -/
def taskObj1 : Task := ⟨1, 0, 0, "", TaskKind.task, none⟩

/-- A concrete task object with iid 2. -/
def taskObj2 : Task := ⟨2, 0, 0, "", TaskKind.task, none⟩

/-- A concrete event payload referencing no objects. -/
def eventPayload : Event := ⟨0, Parent.root, [], []⟩

/-- An event record at a given chunk timestamp (events reference no
objects, so appending one always persists it). -/
def eventRecordAt (micros : Nat) : Record :=
  ⟨⟨⟨micros⟩⟩, RecordData.event eventPayload⟩

lemma find?_isSome_of_any {α : Type} (l : List α) (p : α → Bool)
    (h : l.any p = true) : (l.find? p).isSome = true := by
  induction l with
  | nil => simp at h
  | cons a l ih =>
      rw [List.find?_cons]
      by_cases ha : p a
      · simp [ha]
      · simp only [List.any_cons, ha, Bool.false_or] at h
        simp [ha, ih h]

lemma appendRecord_abort_eq (buf : Buffer) (record : Record)
    (get_objects : Resolver)
    (habort :
      (processObjects buf (resolverPairs buf record get_objects)).2 = true) :
    appendRecord buf record get_objects =
      (processObjects buf (resolverPairs buf record get_objects)).1 := by
  unfold appendRecord
  dsimp only
  rw [if_pos habort]

lemma appendRecord_persist_fields (buf : Buffer) (record : Record)
    (get_objects : Resolver)
    (habort :
      (processObjects buf (resolverPairs buf record get_objects)).2 =
        false) :
    (appendRecord buf record get_objects).record_count =
      buf.record_count + 1 ∧
    (appendRecord buf record get_objects).records =
      buf.records ++ [record] ∧
    (appendRecord buf record get_objects).header.earliest_timestamp =
      (if buf.record_count = 0 then record.meta.timestamp
       else buf.header.earliest_timestamp) ∧
    (appendRecord buf record get_objects).header.latest_timestamp =
      record.meta.timestamp := by
  have hfields :=
    processObjects_fields buf (resolverPairs buf record get_objects)
  have hnot :
      ¬ ((processObjects buf (resolverPairs buf record get_objects)).2 =
        true) := by
    simp [habort]
  refine ⟨?_, ?_, ?_, ?_⟩
  · show (if (processObjects buf (resolverPairs buf record get_objects)).2 =
        true then _ else _ : Buffer).record_count = buf.record_count + 1
    rw [if_neg hnot]
    show (processObjects buf
      (resolverPairs buf record get_objects)).1.record_count + 1 =
      buf.record_count + 1
    rw [hfields.1]
  · show (if (processObjects buf (resolverPairs buf record get_objects)).2 =
        true then _ else _ : Buffer).records = buf.records ++ [record]
    rw [if_neg hnot]
    show (processObjects buf
      (resolverPairs buf record get_objects)).1.records ++ [record] =
      buf.records ++ [record]
    rw [hfields.2.1]
  · show (if (processObjects buf (resolverPairs buf record get_objects)).2 =
        true then _ else _ : Buffer).header.earliest_timestamp = _
    rw [if_neg hnot]
    show (if (processObjects buf
        (resolverPairs buf record get_objects)).1.record_count = 0 then
        record.meta.timestamp
      else (processObjects buf
        (resolverPairs buf record get_objects)).1.header.earliest_timestamp) =
      (if buf.record_count = 0 then record.meta.timestamp
       else buf.header.earliest_timestamp)
    rw [hfields.1, hfields.2.2]
  · show (if (processObjects buf (resolverPairs buf record get_objects)).2 =
        true then _ else _ : Buffer).header.latest_timestamp =
      record.meta.timestamp
    rw [if_neg hnot]

lemma runAppends_inv (appends : List (Record × Resolver)) :
    ∀ (buf : Buffer),
    (buf.record_count = 0 ↔ buf.records = []) →
    (∀ r ∈ buf.records,
      buf.header.earliest_timestamp.micros ≤ r.meta.timestamp.micros ∧
      r.meta.timestamp.micros ≤ buf.header.latest_timestamp.micros) →
    (∀ a ∈ appends, buf.records ≠ [] →
      buf.header.latest_timestamp.micros ≤ a.1.meta.timestamp.micros) →
    (appends.map (fun a => a.1.meta.timestamp.micros)).Pairwise (· ≤ ·) →
    ((runAppends buf appends).1.record_count = 0 ↔
      (runAppends buf appends).1.records = []) ∧
    (∀ r ∈ (runAppends buf appends).1.records,
      (runAppends buf appends).1.header.earliest_timestamp.micros ≤
        r.meta.timestamp.micros ∧
      r.meta.timestamp.micros ≤
        (runAppends buf appends).1.header.latest_timestamp.micros) := by
  induction appends with
  | nil =>
      intro buf hcnt hbnd _ _
      exact ⟨hcnt, hbnd⟩
  | cons a rest ih =>
      intro buf hcnt hbnd hts hpair
      obtain ⟨rc, res⟩ := a
      have hgoal :
          (runAppends buf ((rc, res) :: rest)).1 =
          (runAppends (appendRecord buf rc res) rest).1 := rfl
      rw [hgoal]
      have hpair' := (List.pairwise_cons.mp hpair).2
      have hhead := (List.pairwise_cons.mp hpair).1
      by_cases habort :
          (processObjects buf (resolverPairs buf rc res)).2 = true
      · -- the record is dropped: all tracked fields are unchanged
        have heq := appendRecord_abort_eq buf rc res habort
        have hfields := processObjects_fields buf (resolverPairs buf rc res)
        have e1 : (appendRecord buf rc res).record_count =
            buf.record_count := by rw [heq]; exact hfields.1
        have e2 : (appendRecord buf rc res).records = buf.records := by
          rw [heq]; exact hfields.2.1
        have e3 : (appendRecord buf rc res).header = buf.header := by
          rw [heq]; exact hfields.2.2
        refine ih (appendRecord buf rc res) ?_ ?_ ?_ hpair'
        · rw [e1, e2]; exact hcnt
        · intro r hr
          rw [e2] at hr
          rw [e3]
          exact hbnd r hr
        · intro b hb hne
          rw [e2] at hne
          rw [e3]
          exact hts b (List.mem_cons_of_mem _ hb) hne
      · -- the record is persisted
        have habort' :
            (processObjects buf (resolverPairs buf rc res)).2 = false :=
          bool_false_of_not_true habort
        obtain ⟨e1, e2, e3, e4⟩ :=
          appendRecord_persist_fields buf rc res habort'
        refine ih (appendRecord buf rc res) ?_ ?_ ?_ hpair'
        · rw [e1, e2]
          simp
        · intro r hr
          rw [e2] at hr
          rcases List.mem_append.mp hr with hold | hnew
          · have hne : buf.records ≠ [] :=
              List.ne_nil_of_mem hold
            have hcnt0 : ¬ buf.record_count = 0 := by
              intro h0
              exact hne (hcnt.mp h0)
            have hlat : buf.header.latest_timestamp.micros ≤
                rc.meta.timestamp.micros :=
              hts (rc, res) (List.mem_cons_self _ _) hne
            constructor
            · rw [e3, if_neg hcnt0]
              exact (hbnd r hold).1
            · rw [e4]
              exact le_trans (hbnd r hold).2 hlat
          · have hrc : r = rc := List.mem_singleton.mp hnew
            subst hrc
            constructor
            · by_cases hcnt0 : buf.record_count = 0
              · rw [e3, if_pos hcnt0]
              · rw [e3, if_neg hcnt0]
                have hne : buf.records ≠ [] := by
                  intro h0
                  exact hcnt0 (hcnt.mpr h0)
                obtain ⟨r0, hr0⟩ := List.exists_mem_of_ne_nil _ hne
                have hlat : buf.header.latest_timestamp.micros ≤
                    r.meta.timestamp.micros :=
                  hts (r, res) (List.mem_cons_self _ _) hne
                exact le_trans (le_trans (hbnd r0 hr0).1 (hbnd r0 hr0).2)
                  hlat
            · rw [e4]
        · intro b hb hne
          rw [e4]
          exact hhead _ (List.mem_map_of_mem _ hb)

lemma appendRecord_contains_mono (buf : Buffer) (record : Record)
    (get_objects : Resolver) (X : InstrumentationId)
    (h : objectsContainsKey buf.objects X = true) :
    objectsContainsKey (appendRecord buf record get_objects).objects X =
      true := by
  have hmono := processObjects_contains_mono buf
    (resolverPairs buf record get_objects) X h
  unfold appendRecord
  dsimp only
  split
  · exact hmono
  · exact hmono

/-- Saturating `u64` multiplication (`u64::saturating_mul`). -/
def satMul64 (a b : Nat) : Nat := min (a * b) (2 ^ 64 - 1)

/-- Saturating `u64` addition (`u64::saturating_add`). -/
def satAdd64 (a b : Nat) : Nat := min (a + b) (2 ^ 64 - 1)

/-- `abs_timestamp_to_nanos` in `rfr-convert/src/perfetto.rs`. -/
def absTimestampToNanos (secs subsec_micros : Nat) : Nat :=
  satAdd64 (satMul64 secs 1000000000) (subsec_micros * 1000)

/-- Waker action, from `rfr-convert/src/collect.rs` (`WakerAction`). -/
inductive WakerAction where
  | consume
  | byRef
  deriving Repr, DecidableEq

/-- Conversion record payload, from `rfr-convert/src/collect.rs` (`Data`). -/
inductive CData where
  | taskNew (iid : InstrumentationId)
  | taskDrop (iid : InstrumentationId)
  | taskPollStart (iid : InstrumentationId)
  | taskPollEnd (iid : InstrumentationId)
  | wakerWoken (woken_by : Option InstrumentationId) (action : WakerAction)
      (wid : Nat)
  | wakerWake (woken : InstrumentationId) (action : WakerAction) (wid : Nat)
  | wakerClone (waker : Waker)
  | wakerDrop (waker : Waker)
  | spawn (spawned_iid : InstrumentationId) (by_iid : InstrumentationId)
  deriving Repr, DecidableEq

/-- Conversion record, from `rfr-convert/src/collect.rs` (`Record`); `wid`
values (`WakeId`) and `did` values (`DynamicId`) are `u64` newtypes
modelled as `Nat`. -/
structure CRecord where
  timestamp : AbsTimestamp
  data : CData
  deriving Repr, DecidableEq

/-- Records belonging to one task, from `rfr-convert/src/collect.rs`
(`TaskRecords`); `endTime` models the `end` field. -/
structure TaskRecords where
  task : Task
  did : Nat
  greatest_wid : Nat
  start : AbsTimestamp
  endTime : Option AbsTimestamp
  records : List CRecord
  deriving Repr, DecidableEq

/-- Records belonging to one sequence, from `rfr-convert/src/collect.rs`
(`SeqRecords`); `endTime` models the `end` field. -/
structure SeqRecords where
  header : SeqChunkHeader
  start : Option AbsTimestamp
  endTime : Option AbsTimestamp
  records : List CRecord
  deriving Repr, DecidableEq

/-- Collected conversion data, from `rfr-convert/src/collect.rs`
(`CollectedData`).  The `tasks` hash map is modelled as an association
list whose order is the iteration order of `CollectedData::tasks()`
(sorted by start time); `sequences` likewise. -/
structure CollectedData where
  tasks : List (InstrumentationId × TaskRecords)
  sequences : List SeqRecords
  largest_did : Nat
  deriving Repr, DecidableEq

/-- `HashMap::get` on the modelled `tasks` map. -/
def tasksGet (tasks : List (InstrumentationId × TaskRecords))
    (iid : InstrumentationId) : Option TaskRecords :=
  (tasks.find? (fun p => p.1 = iid)).map Prod.snd

/-- Derived task state, from `rfr-convert/src/perfetto.rs` (`TaskState`);
the scheduled states carry the wake flow id (a `FlowId`, modelled as the
underlying `u64`). -/
inductive TaskState where
  | unknown
  | idle
  | idleScheduled (wake_flow_id : Nat)
  | polling
  | pollingScheduled (wake_flow_id : Nat)
  | dropped
  deriving Repr, DecidableEq

namespace FlowId

/-- `FlowId::MASK_SPAWN = 1 << 63`. -/
def MASK_SPAWN : Nat := 1 <<< 63

/-- `FlowId::SHIFT_WAKE = 53`. -/
def SHIFT_WAKE : Nat := 53

/-- `FlowId::MASK_WAKE = 0x3ff << SHIFT_WAKE`. -/
def MASK_WAKE : Nat := 0x3ff <<< SHIFT_WAKE

/-- `FlowId::spawn`: set the spawn bit on the dynamic id. -/
def spawn (spawned_did : Nat) : Nat := spawned_did ||| MASK_SPAWN

/-- `FlowId::wake`: or the dynamic id with the shifted, masked wake
counter.  The `u64` shift discards high bits, hence the `% 2 ^ 64`. -/
def wake (woken_did : Nat) (wid : Nat) : Nat :=
  woken_did ||| (((wid <<< SHIFT_WAKE) % 2 ^ 64) &&& MASK_WAKE)

/-- `FlowId::max_dynamic_id = 1 << SHIFT_WAKE`. -/
def maxDynamicId : Nat := 1 <<< SHIFT_WAKE

/-- `u64` bitwise complement, used by the `Debug` impl. -/
def not64 (m : Nat) : Nat := (2 ^ 64 - 1) ^^^ m

/-- The dynamic-id field extracted by `impl Debug for FlowId`:
`self.0 & !(MASK_SPAWN | MASK_WAKE)`. -/
def dynamicId (f : Nat) : Nat := f &&& not64 (MASK_SPAWN ||| MASK_WAKE)

/-- The spawn flag extracted by `impl Debug for FlowId`:
`self.0 & MASK_SPAWN == MASK_SPAWN`. -/
def isSpawn (f : Nat) : Bool := (f &&& MASK_SPAWN) == MASK_SPAWN

/-- The wake counter extracted by `impl Debug for FlowId`:
`(self.0 & MASK_WAKE) >> SHIFT_WAKE`. -/
def wakeId (f : Nat) : Nat := (f &&& MASK_WAKE) >>> SHIFT_WAKE

end FlowId

/-- Perfetto track-event type (`track_event::Type`), restricted to the
values the converter emits. -/
inductive TrackEventType where
  | sliceBegin
  | sliceEnd
  | instant
  deriving Repr, DecidableEq

/-- The track-event payload of one `TracePacket` pushed by
`PacketAdder::add_and_clear`: timestamp (after shift), track uuid, event
type, optional name, categories, flow ids, terminating flow ids and debug
annotations (name/value string pairs). -/
structure TrackEventPacket where
  timestamp : Nat
  trackUuid : Nat
  eventType : TrackEventType
  name : Option String
  categories : List String
  flowIds : List Nat
  terminatingFlowIds : List Nat
  debugAnnotations : List (String × String)
  deriving Repr, DecidableEq

/-- A trace packet: the process descriptor, a track descriptor (with
parent uuid and name), or a track event. -/
inductive TracePacket where
  | processDescriptor (uuid : Nat) (name : String)
  | trackDescriptor (uuid : Nat) (parentUuid : Nat) (name : String)
  | trackEvent (e : TrackEventPacket)
  deriving Repr, DecidableEq

/-- Rust `Debug` rendering of a `TaskKind`, used in debug annotations. -/
def taskKindDebug : TaskKind → String
  | TaskKind.task => "Task"
  | TaskKind.localTask => "Local"
  | TaskKind.blocking => "Blocking"
  | TaskKind.blockOn => "BlockOn"
  | TaskKind.other s => "Other(\"" ++ s ++ "\")"

/-- Rust `Debug` rendering of an `Option<InstrumentationId>`, used in the
`context` debug annotation. -/
def contextDebug : Option InstrumentationId → String
  | none => "None"
  | some iid => "Some(InstrumentationId(" ++ toString iid ++ "))"

/-- `waker_debug_annotations` in `rfr-convert/src/perfetto.rs`. -/
def wakerDebugAnnotations (waker : Waker) : List (String × String) :=
  match waker.context with
  | some iid => [("context_iid", toString iid)]
  | none => []

/-- `task_track_uuid`: `task.iid + 2`. -/
def taskTrackUuid (tr : TaskRecords) : Nat := tr.task.iid + 2

/-- `task_track_name` in `rfr-convert/src/perfetto.rs`. -/
def taskTrackName (tr : TaskRecords) : String :=
  match tr.task.task_kind with
  | TaskKind.blockOn => "block_on"
  | TaskKind.blocking =>
      if tr.task.task_name = "" then "Blocking" else tr.task.task_name
  | _ => tr.task.task_name

/-- `sequence_track_uuid`: `seq_id + 1_000_000`. -/
def sequenceTrackUuid (sr : SeqRecords) : Nat := sr.header.seq_id + 1000000

/-- `sequence_track_name`: `"Sequence <id>"`. -/
def sequenceTrackName (sr : SeqRecords) : String :=
  "Sequence " ++ toString sr.header.seq_id

/-- The name of a wake action (`waker::wake` / `waker::wake_by_ref`). -/
def wakeActionName : WakerAction → String
  | WakerAction.consume => "waker::wake"
  | WakerAction.byRef => "waker::wake_by_ref"

/-- One iteration of the sequence-records loop of `write_perfetto`
(`rfr-convert/src/perfetto.rs`): the packets pushed for one record on a
sequence track.  Task records and `WakerWoken` records hit `debug_assert`
arms and push nothing; wake and spawn records are `Instant` events shifted
one nanosecond back, carrying the woken/spawned task's flow id when the
task is known. -/
def processSeqRecord (tasks : List (InstrumentationId × TaskRecords))
    (track_uuid : Nat) (record : CRecord) : List TracePacket :=
  let ts := absTimestampToNanos record.timestamp.secs
    record.timestamp.subsec_micros
  match record.data with
  | CData.taskNew _ | CData.taskPollStart _ | CData.taskPollEnd _
  | CData.taskDrop _ => []
  | CData.wakerWoken _ _ _ => []
  | CData.wakerWake woken action wid =>
      [TracePacket.trackEvent
        { timestamp := ts - 1
          trackUuid := track_uuid
          eventType := TrackEventType.instant
          name := some (wakeActionName action)
          categories := ["waker"]
          flowIds :=
            ((tasksGet tasks woken).map
              (fun tr => FlowId.wake tr.did wid)).toList
          terminatingFlowIds := []
          debugAnnotations := [("woken", toString woken)] }]
  | CData.wakerClone waker =>
      [TracePacket.trackEvent
        { timestamp := ts
          trackUuid := track_uuid
          eventType := TrackEventType.instant
          name := some "waker::clone"
          categories := ["waker"]
          flowIds := []
          terminatingFlowIds := []
          debugAnnotations := wakerDebugAnnotations waker }]
  | CData.wakerDrop waker =>
      [TracePacket.trackEvent
        { timestamp := ts
          trackUuid := track_uuid
          eventType := TrackEventType.instant
          name := some "waker::drop"
          categories := ["waker"]
          flowIds := []
          terminatingFlowIds := []
          debugAnnotations := wakerDebugAnnotations waker }]
  | CData.spawn spawned_iid _ =>
      [TracePacket.trackEvent
        { timestamp := ts - 1
          trackUuid := track_uuid
          eventType := TrackEventType.instant
          name := some "task::spawn"
          categories := ["task"]
          flowIds :=
            ((tasksGet tasks spawned_iid).map
              (fun tr => FlowId.spawn tr.did)).toList
          terminatingFlowIds := []
          debugAnnotations := [("spawned_iid", toString spawned_iid)] }]

/-- One iteration of the per-task record loop of `write_perfetto`: the new
task state and the packets pushed for one record on a task track.  The
state machine is the `match` on `record.data` at lines 398-576 of
`rfr-convert/src/perfetto.rs`. -/
def processTaskRecord (tasks : List (InstrumentationId × TaskRecords))
    (task : Task) (task_did : Nat) (track_uuid : Nat) (track_name : String)
    (state : TaskState) (record : CRecord) :
    TaskState × List TracePacket :=
  let ts := absTimestampToNanos record.timestamp.secs
    record.timestamp.subsec_micros
  match record.data with
  | CData.taskPollStart _ =>
      let closing : List TracePacket × Option Nat :=
        match state with
        | TaskState.idleScheduled wake_flow_id =>
            ([TracePacket.trackEvent
              { timestamp := ts
                trackUuid := track_uuid
                eventType := TrackEventType.sliceEnd
                name := none
                categories := ["scheduled", "iid=" ++ toString task.iid]
                flowIds := []
                terminatingFlowIds := []
                debugAnnotations := [] }], some wake_flow_id)
        | _ => ([], none)
      let active_name : String :=
        match task.task_kind with
        | TaskKind.blocking => "active"
        | _ => "poll"
      (TaskState.polling,
        closing.1 ++ [TracePacket.trackEvent
          { timestamp := ts
            trackUuid := track_uuid
            eventType := TrackEventType.sliceBegin
            name := some active_name
            categories := [active_name, "iid=" ++ toString task.iid]
            flowIds := []
            terminatingFlowIds := closing.2.toList
            debugAnnotations := [] }])
  | CData.taskPollEnd _ =>
      let state' : TaskState :=
        match state with
        | TaskState.polling => TaskState.idle
        | TaskState.pollingScheduled wake_flow_id =>
            TaskState.idleScheduled wake_flow_id
        | _ => TaskState.idle
      let schedPackets : List TracePacket :=
        match state' with
        | TaskState.idleScheduled _ =>
            [TracePacket.trackEvent
              { timestamp := ts
                trackUuid := track_uuid
                eventType := TrackEventType.sliceBegin
                name := some "scheduled"
                categories := ["scheduled", "iid=" ++ toString task.iid]
                flowIds := []
                terminatingFlowIds := []
                debugAnnotations := [] }]
        | _ => []
      (state',
        TracePacket.trackEvent
          { timestamp := ts
            trackUuid := track_uuid
            eventType := TrackEventType.sliceEnd
            name := none
            categories := ["poll", "iid=" ++ toString task.iid]
            flowIds := []
            terminatingFlowIds := []
            debugAnnotations := [] } :: schedPackets)
  | CData.taskNew _ =>
      (TaskState.idle,
        [TracePacket.trackEvent
          { timestamp := ts
            trackUuid := track_uuid
            eventType := TrackEventType.sliceBegin
            name := some track_name
            categories := ["task", "iid=" ++ toString task.iid]
            flowIds := []
            terminatingFlowIds := [FlowId.spawn task_did]
            debugAnnotations :=
              [("task_kind", taskKindDebug task.task_kind),
               ("task_name", task.task_name),
               ("task_id", toString task.task_id),
               ("context", contextDebug task.context)] }])
  | CData.taskDrop _ =>
      (TaskState.dropped,
        [TracePacket.trackEvent
          { timestamp := ts
            trackUuid := track_uuid
            eventType := TrackEventType.sliceEnd
            name := none
            categories := ["task", "iid=" ++ toString task.iid]
            flowIds := []
            terminatingFlowIds := []
            debugAnnotations := [] }])
  | CData.wakerWoken woken_by _ wid =>
      let wake_flow_id := FlowId.wake task_did wid
      let debug_annotations : List (String × String) :=
        match woken_by with
        | some iid => [("woken_by", toString iid)]
        | none => []
      match state with
      | TaskState.idle =>
          (TaskState.idleScheduled wake_flow_id,
            [TracePacket.trackEvent
              { timestamp := ts
                trackUuid := track_uuid
                eventType := TrackEventType.sliceBegin
                name := some "scheduled"
                categories := ["scheduled", "iid=" ++ toString task.iid]
                flowIds := []
                terminatingFlowIds := []
                debugAnnotations := debug_annotations }])
      | TaskState.polling => (TaskState.pollingScheduled wake_flow_id, [])
      | _ => (TaskState.idleScheduled wake_flow_id, [])
  | CData.wakerWake woken action wid =>
      (state,
        [TracePacket.trackEvent
          { timestamp := ts - 1
            trackUuid := track_uuid
            eventType := TrackEventType.instant
            name := some (wakeActionName action)
            categories := ["waker"]
            flowIds :=
              ((tasksGet tasks woken).map
                (fun tr => FlowId.wake tr.did wid)).toList
            terminatingFlowIds := []
            debugAnnotations := [("woken", toString woken)] }])
  | CData.wakerClone waker =>
      (state,
        [TracePacket.trackEvent
          { timestamp := ts
            trackUuid := track_uuid
            eventType := TrackEventType.instant
            name := some "waker::clone"
            categories := ["waker"]
            flowIds := []
            terminatingFlowIds := []
            debugAnnotations := wakerDebugAnnotations waker }])
  | CData.wakerDrop waker =>
      (state,
        [TracePacket.trackEvent
          { timestamp := ts
            trackUuid := track_uuid
            eventType := TrackEventType.instant
            name := some "waker::drop"
            categories := ["waker"]
            flowIds := []
            terminatingFlowIds := []
            debugAnnotations := wakerDebugAnnotations waker }])
  | CData.spawn spawned_iid _ =>
      (state,
        [TracePacket.trackEvent
          { timestamp := ts - 1
            trackUuid := track_uuid
            eventType := TrackEventType.instant
            name := some "task::spawn"
            categories := ["task"]
            flowIds :=
              ((tasksGet tasks spawned_iid).map
                (fun tr => FlowId.spawn tr.did)).toList
            terminatingFlowIds := []
            debugAnnotations := [("spawned_iid", toString spawned_iid)] }])

/-- The per-task record loop of `write_perfetto`: fold the state machine
over the task's records, concatenating the emitted packets. -/
def processTaskRecords (tasks : List (InstrumentationId × TaskRecords))
    (task : Task) (task_did : Nat) (track_uuid : Nat) (track_name : String) :
    TaskState → List CRecord → TaskState × List TracePacket
  | state, [] => (state, [])
  | state, r :: rest =>
      let step := processTaskRecord tasks task task_did track_uuid
        track_name state r
      let next := processTaskRecords tasks task task_did track_uuid
        track_name step.1 rest
      (next.1, step.2 ++ next.2)

/-- The packets for one sequence in `write_perfetto`: nothing when the
sequence has no records, otherwise its track descriptor followed by its
record packets. -/
def seqPacketsFor (tasks : List (InstrumentationId × TaskRecords))
    (sr : SeqRecords) : List TracePacket :=
  if sr.records.isEmpty then []
  else
    TracePacket.trackDescriptor (sequenceTrackUuid sr) 1
        (sequenceTrackName sr) ::
      (sr.records.map (processSeqRecord tasks (sequenceTrackUuid sr))).join

/-- The packets for one task in `write_perfetto`: its track descriptor
(named `<name> (iid=<iid> task_id=<task_id>)`) followed by the packets of
the per-task state-machine loop, which starts in `TaskState::Unknown`. -/
def taskPacketsFor (tasks : List (InstrumentationId × TaskRecords))
    (tr : TaskRecords) : List TracePacket :=
  TracePacket.trackDescriptor (taskTrackUuid tr) 1
      (taskTrackName tr ++ " (iid=" ++ toString tr.task.iid ++
        " task_id=" ++ toString tr.task.task_id ++ ")") ::
    (processTaskRecords tasks tr.task tr.did (taskTrackUuid tr)
      (taskTrackName tr) TaskState.unknown tr.records).2

/-- `write_perfetto` in `rfr-convert/src/perfetto.rs`, up to the point
where the packet list is protobuf-encoded and written to the output file.
The flow-id overflow check comes first: when `largest_did` is at least
`FlowId::max_dynamic_id()` the function errors out before any packet is
built. -/
def writePerfetto (cd : CollectedData) : Except String (List TracePacket) :=
  if cd.largest_did ≥ FlowId.maxDynamicId then
    Except.error
      ("We need at least 11 bits for flow_ids, but there were more than " ++
        "2^53 objects recorded (largest_did=" ++ toString cd.largest_did ++
        "). Perhaps check the DynamicId assignment logic, this doesn't " ++
        "seem very likely.")
  else
    Except.ok
      (TracePacket.processDescriptor 1 "rfr recording" ::
        ((cd.sequences.map (seqPacketsFor cd.tasks)).join ++
          (cd.tasks.map (fun p => taskPacketsFor cd.tasks p.2)).join))

/-- The task-state transition table exactly as the claim states it:
`TaskNew` sets `Idle` from any state; `WakerWoken` takes `Idle` to
`IdleScheduled`, `Polling` to `PollingScheduled`, and any other state to
`IdleScheduled` (the carried flow id being `FlowId::wake` of the task's
dynamic id and the wake counter); `TaskPollStart` sets `Polling` from any
state; `TaskPollEnd` takes `Polling` to `Idle`, `PollingScheduled` to
`IdleScheduled` with the same flow id, and any other state to `Idle`;
`TaskDrop` sets `Dropped` from any state.  Records outside the table leave
the state unchanged. -/
def specTaskStep (task_did : Nat) (d : CData) (s : TaskState) : TaskState :=
  match d with
  | CData.taskNew _ => TaskState.idle
  | CData.wakerWoken _ _ wid =>
      match s with
      | TaskState.idle => TaskState.idleScheduled (FlowId.wake task_did wid)
      | TaskState.polling =>
          TaskState.pollingScheduled (FlowId.wake task_did wid)
      | _ => TaskState.idleScheduled (FlowId.wake task_did wid)
  | CData.taskPollStart _ => TaskState.polling
  | CData.taskPollEnd _ =>
      match s with
      | TaskState.polling => TaskState.idle
      | TaskState.pollingScheduled w => TaskState.idleScheduled w
      | _ => TaskState.idle
  | CData.taskDrop _ => TaskState.dropped
  | _ => s

lemma mask_spawn_eq : FlowId.MASK_SPAWN = 2 ^ 63 := by
  show 1 <<< 63 = 2 ^ 63
  rw [Nat.shiftLeft_eq, one_mul]

lemma max_dynamic_id_eq : FlowId.maxDynamicId = 2 ^ 53 := by
  show 1 <<< 53 = 2 ^ 53
  rw [Nat.shiftLeft_eq, one_mul]

lemma testBit_mask_spawn (j : Nat) :
    Nat.testBit FlowId.MASK_SPAWN j = decide (63 = j) := by
  rw [mask_spawn_eq, Nat.testBit_two_pow]

lemma testBit_mask_wake (j : Nat) :
    Nat.testBit FlowId.MASK_WAKE j =
      (decide (53 ≤ j) && decide (j - 53 < 10)) := by
  have h : FlowId.MASK_WAKE = (2 ^ 10 - 1) <<< 53 := by
    show 0x3ff <<< 53 = (2 ^ 10 - 1) <<< 53
    norm_num
  rw [h, Nat.testBit_shiftLeft, Nat.testBit_two_pow_sub_one]

lemma testBit_high_false {x : Nat} (hx : x < 2 ^ 53) {j : Nat}
    (hj : 53 ≤ j) : Nat.testBit x j = false :=
  Nat.testBit_lt_two_pow
    (lt_of_lt_of_le hx (Nat.pow_le_pow_right (by norm_num) hj))

lemma testBit_low_false {x : Nat} (hx : x < 2 ^ 10) {j : Nat}
    (hj : 10 ≤ j) : Nat.testBit x j = false :=
  Nat.testBit_lt_two_pow
    (lt_of_lt_of_le hx (Nat.pow_le_pow_right (by norm_num) hj))

lemma wake_shift_mask (w : Nat) :
    ((w <<< FlowId.SHIFT_WAKE) % 2 ^ 64) &&& FlowId.MASK_WAKE =
      (w % 1024) <<< 53 := by
  show ((w <<< 53) % 2 ^ 64) &&& FlowId.MASK_WAKE = (w % 1024) <<< 53
  apply Nat.eq_of_testBit_eq
  intro j
  rw [Nat.testBit_and, Nat.testBit_mod_two_pow, testBit_mask_wake,
    Nat.testBit_shiftLeft, Nat.testBit_shiftLeft]
  have h1024 : (1024 : Nat) = 2 ^ 10 := by norm_num
  rw [h1024, Nat.testBit_mod_two_pow]
  by_cases h53 : 53 ≤ j
  · by_cases h10 : j - 53 < 10
    · have h64 : j < 64 := by omega
      simp [h53, h10, h64]
    · simp [h53, h10]
  · simp [h53]

lemma wake_eq (did wid : Nat) :
    FlowId.wake did wid = did ||| ((wid % 1024) <<< 53) := by
  unfold FlowId.wake
  rw [wake_shift_mask]

lemma land_lor_self (a b : Nat) : (a ||| b) &&& b = b := by
  apply Nat.eq_of_testBit_eq
  intro j
  rw [Nat.testBit_and, Nat.testBit_or]
  cases Nat.testBit a j <;> cases Nat.testBit b j <;> rfl

lemma isSpawn_spawn (did : Nat) :
    FlowId.isSpawn (FlowId.spawn did) = true := by
  unfold FlowId.isSpawn FlowId.spawn
  rw [land_lor_self]
  simp

lemma wakeId_spawn (did : Nat) (hdid : did < 2 ^ 53) :
    FlowId.wakeId (FlowId.spawn did) = 0 := by
  unfold FlowId.wakeId FlowId.spawn
  have hand : (did ||| FlowId.MASK_SPAWN) &&& FlowId.MASK_WAKE = 0 := by
    apply Nat.eq_of_testBit_eq
    intro j
    rw [Nat.testBit_and, Nat.testBit_or, testBit_mask_wake,
      testBit_mask_spawn, Nat.zero_testBit]
    by_cases h53 : 53 ≤ j
    · by_cases h10 : j - 53 < 10
      · have hd : Nat.testBit did j = false := testBit_high_false hdid h53
        have h63 : ¬ (63 = j) := by omega
        simp [hd, h63]
      · simp [h10]
    · simp [h53]
  rw [hand]
  rfl

lemma dynamicId_spawn (did : Nat) (hdid : did < 2 ^ 53) :
    FlowId.dynamicId (FlowId.spawn did) = did := by
  unfold FlowId.dynamicId FlowId.spawn FlowId.not64
  apply Nat.eq_of_testBit_eq
  intro j
  rw [Nat.testBit_and, Nat.testBit_or, Nat.testBit_xor, Nat.testBit_or,
    testBit_mask_spawn, testBit_mask_wake, Nat.testBit_two_pow_sub_one]
  rcases Nat.lt_or_ge j 53 with hj1 | hj1
  · simp [show ¬ (53 ≤ j) from by omega, show j < 64 from by omega,
      show ¬ (63 = j) from by omega]
  · have hd : Nat.testBit did j = false := testBit_high_false hdid hj1
    rcases Nat.lt_or_ge j 63 with hj2 | hj2
    · simp [hd, show (53 ≤ j) from hj1, show j - 53 < 10 from by omega,
        show j < 64 from by omega, show ¬ (63 = j) from by omega]
    · rcases Nat.lt_or_ge j 64 with hj3 | hj3
      · have hj63 : (63 : Nat) = j := by omega
        simp [hd, hj63, show j < 64 from hj3]
      · simp [hd, show ¬ (j < 64) from by omega,
          show ¬ (63 = j) from by omega,
          show ¬ (j - 53 < 10) from by omega]

lemma isSpawn_wake (did wid : Nat) (hdid : did < 2 ^ 53) :
    FlowId.isSpawn (FlowId.wake did wid) = false := by
  unfold FlowId.isSpawn
  rw [wake_eq]
  have hw : wid % 1024 < 2 ^ 10 := by
    have := Nat.mod_lt wid (show 0 < 1024 by norm_num)
    omega
  have hand :
      (did ||| ((wid % 1024) <<< 53)) &&& FlowId.MASK_SPAWN = 0 := by
    apply Nat.eq_of_testBit_eq
    intro j
    rw [Nat.testBit_and, Nat.testBit_or, testBit_mask_spawn,
      Nat.testBit_shiftLeft, Nat.zero_testBit]
    by_cases h63 : (63 : Nat) = j
    · subst h63
      have hd : Nat.testBit did 63 = false :=
        testBit_high_false hdid (by norm_num)
      have hw' : Nat.testBit (wid % 1024) (63 - 53) = false :=
        testBit_low_false hw (by norm_num)
      simp [hd, hw']
    · simp [h63]
  rw [hand]
  rw [mask_spawn_eq]
  decide

lemma wakeId_wake (did wid : Nat) (hdid : did < 2 ^ 53) :
    FlowId.wakeId (FlowId.wake did wid) = wid % 1024 := by
  unfold FlowId.wakeId
  rw [wake_eq]
  have hw : wid % 1024 < 2 ^ 10 := by
    have := Nat.mod_lt wid (show 0 < 1024 by norm_num)
    omega
  have hand :
      (did ||| ((wid % 1024) <<< 53)) &&& FlowId.MASK_WAKE =
        (wid % 1024) <<< 53 := by
    apply Nat.eq_of_testBit_eq
    intro j
    rw [Nat.testBit_and, Nat.testBit_or, testBit_mask_wake,
      Nat.testBit_shiftLeft]
    by_cases h53 : 53 ≤ j
    · have hd : Nat.testBit did j = false := testBit_high_false hdid h53
      by_cases h10 : j - 53 < 10
      · simp [hd, h53, h10]
      · have hw' : Nat.testBit (wid % 1024) (j - 53) = false :=
          testBit_low_false hw (by omega)
        simp [hd, h53, h10, hw']
    · simp [h53]
  rw [hand]
  show (wid % 1024) <<< 53 >>> 53 = wid % 1024
  rw [Nat.shiftLeft_shiftRight]

lemma dynamicId_wake (did wid : Nat) (hdid : did < 2 ^ 53) :
    FlowId.dynamicId (FlowId.wake did wid) = did := by
  unfold FlowId.dynamicId FlowId.not64
  rw [wake_eq]
  have hw : wid % 1024 < 2 ^ 10 := by
    have := Nat.mod_lt wid (show 0 < 1024 by norm_num)
    omega
  apply Nat.eq_of_testBit_eq
  intro j
  rw [Nat.testBit_and, Nat.testBit_or, Nat.testBit_xor, Nat.testBit_or,
    testBit_mask_spawn, testBit_mask_wake, Nat.testBit_two_pow_sub_one,
    Nat.testBit_shiftLeft]
  rcases Nat.lt_or_ge j 53 with hj1 | hj1
  · simp [show ¬ (53 ≤ j) from by omega, show j < 64 from by omega,
      show ¬ (63 = j) from by omega]
  · have hd : Nat.testBit did j = false := testBit_high_false hdid hj1
    rcases Nat.lt_or_ge j 63 with hj2 | hj2
    · simp [hd, show (53 ≤ j) from hj1, show j - 53 < 10 from by omega,
        show j < 64 from by omega, show ¬ (63 = j) from by omega]
    · have hw' : Nat.testBit (wid % 1024) (j - 53) = false :=
        testBit_low_false hw (by omega)
      rcases Nat.lt_or_ge j 64 with hj3 | hj3
      · have hj63 : (63 : Nat) = j := by omega
        simp [hd, hj63, hw', show j < 64 from hj3,
          show (53 ≤ j) from hj1]
      · simp [hd, hw', show ¬ (j < 64) from by omega,
          show ¬ (63 = j) from by omega, show (53 ≤ j) from hj1,
          show ¬ (j - 53 < 10) from by omega]

lemma processTaskRecord_state
    (tasks : List (InstrumentationId × TaskRecords)) (task : Task)
    (task_did track_uuid : Nat) (track_name : String) (s : TaskState)
    (r : CRecord) :
    (processTaskRecord tasks task task_did track_uuid track_name s r).1 =
      specTaskStep task_did r.data s := by
  obtain ⟨ts, d⟩ := r
  cases d <;> cases s <;> rfl

lemma processTaskRecords_state
    (tasks : List (InstrumentationId × TaskRecords)) (task : Task)
    (task_did track_uuid : Nat) (track_name : String)
    (records : List CRecord) :
    ∀ s : TaskState,
    (processTaskRecords tasks task task_did track_uuid track_name s
        records).1 =
      records.foldl (fun st rec => specTaskStep task_did rec.data st) s := by
  induction records with
  | nil => intro s; rfl
  | cons r rest ih =>
      intro s
      have hred :
          (processTaskRecords tasks task task_did track_uuid track_name s
            (r :: rest)).1 =
          (processTaskRecords tasks task task_did track_uuid track_name
            (processTaskRecord tasks task task_did track_uuid track_name
              s r).1 rest).1 := rfl
      rw [hred, ih, processTaskRecord_state, List.foldl_cons]

end Rfr

namespace Rfr

/-- C3: converting an absolute timestamp to a chunk timestamp relative to a
base with no greater seconds, and back, is the identity. -/
theorem chunk_timestamp_roundtrip (b : AbsTimestampSecs) (t : AbsTimestamp)
    (hsecs : b.secs ≤ t.secs) (hsub : t.subsec_micros < 1000000) :
    (ChunkTimestamp.fromBaseAndTimestamp b t).toAbsTimestamp b = t := by
  cases b with
  | mk bsecs =>
    cases t with
    | mk tsecs tsub =>
      simp only [ChunkTimestamp.fromBaseAndTimestamp,
        ChunkTimestamp.toAbsTimestamp, absTimestamp, AbsTimestamp.mk.injEq]
      simp only at hsecs hsub
      omega

/-- Witness for C3 at `b = 41 s`, `t = 43.000017 s`. -/
theorem chunk_timestamp_roundtrip_witness :
    (ChunkTimestamp.fromBaseAndTimestamp ⟨41⟩ ⟨43, 17⟩).toAbsTimestamp ⟨41⟩ =
      ⟨43, 17⟩ :=
  chunk_timestamp_roundtrip ⟨41⟩ ⟨43, 17⟩ (by norm_num) (by norm_num)

/-- C4 counterexample: for reader `rfr-c/1.2.3` and writer `rfr-c/1.2.9` the
code returns `true` although the reader's remaining `(minor, patch)`
components are not `≥` the writer's (equal minors, smaller patch), so the
claimed characterisation is false at this input. -/
theorem can_read_version_claim_false :
    FormatIdentifier.canReadVersion
        ⟨FormatVariant.rfrChunked, 1, 2, 3⟩
        ⟨FormatVariant.rfrChunked, 1, 2, 9⟩ = true ∧
      ¬ canReadSpecClaim
        ⟨FormatVariant.rfrChunked, 1, 2, 3⟩
        ⟨FormatVariant.rfrChunked, 1, 2, 9⟩ := by
  decide

/-- C4 amended: `can_read_version` returns true exactly when the variants
and majors are equal, the minors are equal when major is zero, the patches
are equal when major and minor are zero, and for nonzero major the reader's
minor is at least the writer's; the patch components are never compared by
order. -/
theorem can_read_version_characterisation (reader writer : FormatIdentifier) :
    reader.canReadVersion writer = true ↔ canReadSpecAmended reader writer := by
  cases reader with
  | mk rv rmaj rmin rpat =>
    cases writer with
    | mk wv wmaj wmin wpat =>
      simp only [FormatIdentifier.canReadVersion, canReadSpecAmended]
      split_ifs <;> simp_all <;> omega

/-- C5: for a positive period that divides one second or is a multiple of one
second, the interval derived from a timestamp contains that timestamp, and
with a period of exactly one second the start offset is `0` and the end
offset is `1_000_000`. -/
theorem chunk_interval_bounds (t : AbsTimestamp) (period : Nat)
    (hsub : t.subsec_micros < 1000000) (hpos : 0 < period)
    (hdiv : period ∣ 1000000 ∨ 1000000 ∣ period) :
    ((ChunkInterval.fromTimestampAndPeriod t period).absStartTime.le t ∧
      t.lt (ChunkInterval.fromTimestampAndPeriod t period).absEndTime) ∧
    (period = 1000000 →
      (ChunkInterval.fromTimestampAndPeriod t period).start_time.micros = 0 ∧
      (ChunkInterval.fromTimestampAndPeriod t period).end_time.micros =
        1000000) := by
  by_cases hp : period > 1000000
  · -- period is a whole number of seconds, strictly more than one
    have hdvd : 1000000 ∣ period := by
      rcases hdiv with h | h
      · exact absurd (Nat.le_of_dvd (by norm_num) h) (by omega)
      · exact h
    obtain ⟨k, hk⟩ := hdvd
    have hk1 : 1 < k := by
      by_contra hle
      interval_cases k <;> omega
    have hdivk : period / 1000000 = k := by
      subst hk
      exact Nat.mul_div_cancel_left k (by norm_num)
    have hmodk : t.secs % k < k := Nat.mod_lt _ (by omega)
    have hmodle : t.secs % k ≤ t.secs := Nat.mod_le _ _
    rw [ChunkInterval.fromTimestampAndPeriod, if_pos hp]
    simp only [ChunkInterval.absStartTime, ChunkInterval.absEndTime,
      ChunkTimestamp.toAbsTimestamp, absTimestamp, AbsTimestamp.le_def,
      AbsTimestamp.lt_def, hdivk]
    have hde : (0 + period) / 1000000 = k := by
      subst hk
      simpa using Nat.mul_div_cancel_left k (show 0 < 1000000 by norm_num)
    have hme : (0 + period) % 1000000 = 0 := by
      subst hk
      simpa using Nat.mul_mod_right 1000000 k
    simp only [hde, hme]
    constructor
    · constructor
      · -- start ≤ t
        simp only [Nat.zero_div, Nat.zero_mod, Nat.add_zero]
        omega
      · -- t < end
        omega
    · intro h1s
      omega
  · -- period is at most one second and divides one second
    have hdvd : period ∣ 1000000 := by
      rcases hdiv with h | h
      · exact h
      · obtain ⟨k, hk⟩ := h
        have hk1 : k = 1 := by
          subst hk
          by_contra hne
          rcases Nat.lt_or_ge k 1 with h1 | h1
          · omega
          · have : 2 ≤ k := by omega
            nlinarith
        subst hk; subst hk1
        simp
    have hple : period ≤ 1000000 := by omega
    have hm : t.subsec_micros % period < period := Nat.mod_lt _ hpos
    have hmle : t.subsec_micros % period ≤ t.subsec_micros := Nat.mod_le _ _
    have hdvd_start : period ∣ (t.subsec_micros - t.subsec_micros % period) :=
      Nat.dvd_sub_mod _
    have hendle :
        (t.subsec_micros - t.subsec_micros % period) + period ≤ 1000000 := by
      have h1 : period ∣
          (1000000 - (t.subsec_micros - t.subsec_micros % period)) :=
        Nat.dvd_sub' hdvd hdvd_start
      have h2 : period ≤
          1000000 - (t.subsec_micros - t.subsec_micros % period) :=
        Nat.le_of_dvd (by omega) h1
      omega
    rw [ChunkInterval.fromTimestampAndPeriod, if_neg hp]
    simp only [ChunkInterval.absStartTime, ChunkInterval.absEndTime,
      ChunkTimestamp.toAbsTimestamp, absTimestamp, AbsTimestampSecs.ofAbs,
      AbsTimestamp.le_def, AbsTimestamp.lt_def]
    constructor
    · constructor
      · -- start ≤ t
        right
        constructor
        · omega
        · omega
      · -- t < end
        omega
    · intro h1s
      omega

/-- Witness for C5 at `t = 3.250000 s`, `period = 1 s`. -/
theorem chunk_interval_bounds_witness :
    ((ChunkInterval.fromTimestampAndPeriod ⟨3, 250000⟩ 1000000).absStartTime.le
        ⟨3, 250000⟩ ∧
      AbsTimestamp.lt ⟨3, 250000⟩
        (ChunkInterval.fromTimestampAndPeriod ⟨3, 250000⟩ 1000000).absEndTime) ∧
    ((1000000 : Nat) = 1000000 →
      (ChunkInterval.fromTimestampAndPeriod ⟨3, 250000⟩
          1000000).start_time.micros = 0 ∧
      (ChunkInterval.fromTimestampAndPeriod ⟨3, 250000⟩
          1000000).end_time.micros = 1000000) :=
  chunk_interval_bounds ⟨3, 250000⟩ 1000000 (by norm_num) (by norm_num)
    (Or.inl dvd_rfl)

/-- C1 counterexample: appending `TaskNew{iid=5}` twice with a resolver
returning `None` invokes the resolver for iid 5 on both appends (argument
lists `[[5], [5]]`), although the first append recorded 5 in
`missing_objects` — the claim says the second invocation must not happen. -/
theorem resolver_reinvoked_after_none :
    (runAppends (SeqChunkBuffer.newBuffer 1 intervalOneSec)
      [(⟨⟨⟨5⟩⟩, RecordData.taskNew 5⟩, fun _ => [none]),
       (⟨⟨⟨6⟩⟩, RecordData.taskNew 5⟩, fun _ => [none])]).2 = [[5], [5]] ∧
    (runAppends (SeqChunkBuffer.newBuffer 1 intervalOneSec)
      [(⟨⟨⟨5⟩⟩, RecordData.taskNew 5⟩, fun _ => [none]),
       (⟨⟨⟨6⟩⟩, RecordData.taskNew 5⟩,
         fun _ => [none])]).1.missing_objects = [5] ∧
    (runAppends (SeqChunkBuffer.newBuffer 1 intervalOneSec)
      [(⟨⟨⟨5⟩⟩, RecordData.taskNew 5⟩, fun _ => [none]),
       (⟨⟨⟨6⟩⟩, RecordData.taskNew 5⟩,
         fun _ => [none])]).1.record_count = 0 :=
  ⟨rfl, rfl, rfl⟩

/-- C1 amended: once an iid is a key of the buffer's `objects` map — in
particular after an append whose resolver returned `Some` for it — no later
`append_record` invokes the resolver for that iid; but `missing_objects` is
never consulted: an iid is queried exactly when it is referenced and absent
from `objects`, so after a `None` result a later append referencing the
same iid queries the resolver for it again. -/
theorem resolver_once_per_cached_object :
    (∀ (buf : Buffer) (X : InstrumentationId),
      objectsContainsKey buf.objects X = true →
      ∀ (appends : List (Record × Resolver)),
        X ∉ (runAppends buf appends).2.join) ∧
    (∀ (buf : Buffer) (record : Record) (get_objects : Resolver)
      (i : InstrumentationId) (o : Object),
      (i, some o) ∈ (resolverPairs buf record get_objects).takeWhile
        (fun p => p.2.isSome) →
      objectsContainsKey
        (appendRecord buf record get_objects).objects i = true) ∧
    (∀ (objects : List (InstrumentationId × Object)) (d : RecordData)
      (X : InstrumentationId),
      X ∈ referencedIids d → objectsContainsKey objects X = false →
      X ∈ missingTaskIds objects d) := by
  refine ⟨?_, ?_, mem_missingTaskIds_of_ref⟩
  · intro buf X hX appends
    induction appends generalizing buf with
    | nil => simp [runAppends]
    | cons a rest ih =>
        obtain ⟨rc, res⟩ := a
        have hred : (runAppends buf ((rc, res) :: rest)).2 =
            missingTaskIds buf.objects rc.data ::
              (runAppends (appendRecord buf rc res) rest).2 := rfl
        rw [hred]
        intro hmem
        have hmem' : X ∈ missingTaskIds buf.objects rc.data ∨
            ∃ l ∈ (runAppends (appendRecord buf rc res) rest).2, X ∈ l := by
          simpa using hmem
        rcases hmem' with h1 | ⟨l, hl, hXl⟩
        · exact missingTaskIds_not_mem_of_contains buf.objects rc.data X
            hX h1
        · exact ih (appendRecord buf rc res)
            (appendRecord_contains_mono buf rc res X hX)
            (List.mem_join.mpr ⟨l, hl, hXl⟩)
  · intro buf record get_objects i o hmem
    have hnd : ((resolverPairs buf record get_objects).map Prod.fst).Nodup :=
      (missingTaskIds_nodup buf.objects record.data).sublist
        (map_fst_zip_sublist _ _)
    have hlook := processObjects_lookup_prefix buf
      (resolverPairs buf record get_objects) hnd i o hmem
    unfold appendRecord
    dsimp only
    split
    · unfold objectsContainsKey
      rw [hlook]
      rfl
    · unfold objectsContainsKey
      show (objectsLookup (processObjects buf
        (resolverPairs buf record get_objects)).1.objects i).isSome = true
      rw [hlook]
      rfl

/-- Witness for the C1 amended theorem: after an append that resolved
iid 2, a later append referencing iid 2 does not pass 2 to its resolver;
and with an empty `objects` map a referenced iid 2 is queried again even
though any earlier resolver call may have answered `None` for it. -/
theorem resolver_once_per_cached_object_witness :
    objectsContainsKey
      (appendRecord (SeqChunkBuffer.newBuffer 1 intervalOneSec)
        ⟨⟨⟨1⟩⟩, RecordData.taskNew 2⟩
        (fun _ => [some (Object.task taskObj2)])).objects 2 = true ∧
    2 ∉ (runAppends
      (appendRecord (SeqChunkBuffer.newBuffer 1 intervalOneSec)
        ⟨⟨⟨1⟩⟩, RecordData.taskNew 2⟩
        (fun _ => [some (Object.task taskObj2)]))
      [(⟨⟨⟨2⟩⟩, RecordData.taskDrop 2⟩, fun _ => [])]).2.join ∧
    2 ∈ missingTaskIds [] (RecordData.taskDrop 2) :=
  ⟨rfl,
    resolver_once_per_cached_object.1
      (appendRecord (SeqChunkBuffer.newBuffer 1 intervalOneSec)
        ⟨⟨⟨1⟩⟩, RecordData.taskNew 2⟩
        (fun _ => [some (Object.task taskObj2)])) 2 rfl
      [(⟨⟨⟨2⟩⟩, RecordData.taskDrop 2⟩, fun _ => [])],
    resolver_once_per_cached_object.2.2 [] (RecordData.taskDrop 2) 2
      (by simp [referencedIids]) rfl⟩

/-- C2: when the resolver answers `None` for a queried iid, the append is
aborted: the record count, the record bytes and the header are unchanged,
and the first unresolved iid is inserted into `missing_objects`. -/
theorem append_record_unresolved_drops (buf : Buffer) (record : Record)
    (get_objects : Resolver)
    (h : (resolverPairs buf record get_objects).any
      (fun p => p.2.isNone) = true) :
    (appendRecord buf record get_objects).record_count =
      buf.record_count ∧
    (appendRecord buf record get_objects).records = buf.records ∧
    (appendRecord buf record get_objects).header = buf.header ∧
    ∃ i, firstUnresolved (resolverPairs buf record get_objects) = some i ∧
      i ∈ (appendRecord buf record get_objects).missing_objects := by
  have habort :
      (processObjects buf (resolverPairs buf record get_objects)).2 =
        true :=
    (processObjects_aborts_iff _ _).mpr h
  have happ := appendRecord_abort_eq buf record get_objects habort
  obtain ⟨h1, h2, h3⟩ :=
    processObjects_fields buf (resolverPairs buf record get_objects)
  refine ⟨by rw [happ]; exact h1, by rw [happ]; exact h2,
    by rw [happ]; exact h3, ?_⟩
  have hfind := find?_isSome_of_any _ _ h
  obtain ⟨pr, hpr⟩ := Option.isSome_iff_exists.mp hfind
  refine ⟨pr.1, ?_, ?_⟩
  · simp [firstUnresolved, hpr]
  · rw [happ]
    exact processObjects_missing_first _ _ _ (by simp [firstUnresolved, hpr])

/-- Witness for C2 (scenario S2): `TaskNew{iid=5}` with a resolver
returning `[None]` leaves the fresh buffer's record count at zero, appends
nothing, keeps the header, and records 5 in `missing_objects`. -/
theorem append_record_unresolved_drops_witness :
    (appendRecord (SeqChunkBuffer.newBuffer 1 intervalOneSec)
      ⟨⟨⟨7⟩⟩, RecordData.taskNew 5⟩ (fun _ => [none])).record_count =
      (SeqChunkBuffer.newBuffer 1 intervalOneSec).record_count ∧
    (appendRecord (SeqChunkBuffer.newBuffer 1 intervalOneSec)
      ⟨⟨⟨7⟩⟩, RecordData.taskNew 5⟩ (fun _ => [none])).records =
      (SeqChunkBuffer.newBuffer 1 intervalOneSec).records ∧
    (appendRecord (SeqChunkBuffer.newBuffer 1 intervalOneSec)
      ⟨⟨⟨7⟩⟩, RecordData.taskNew 5⟩ (fun _ => [none])).header =
      (SeqChunkBuffer.newBuffer 1 intervalOneSec).header ∧
    ∃ i, firstUnresolved (resolverPairs
        (SeqChunkBuffer.newBuffer 1 intervalOneSec)
        ⟨⟨⟨7⟩⟩, RecordData.taskNew 5⟩ (fun _ => [none])) = some i ∧
      i ∈ (appendRecord (SeqChunkBuffer.newBuffer 1 intervalOneSec)
        ⟨⟨⟨7⟩⟩, RecordData.taskNew 5⟩ (fun _ => [none])).missing_objects :=
  append_record_unresolved_drops (SeqChunkBuffer.newBuffer 1 intervalOneSec)
    ⟨⟨⟨7⟩⟩, RecordData.taskNew 5⟩ (fun _ => [none]) rfl

/-- C6 counterexample: appending events with timestamps 5 then 3 (both
persisted) leaves `earliest_timestamp = 5` and `latest_timestamp = 3` —
not the claimed `min` (which would be 3) and `max` (which would be 5) —
so the persisted buffer has a record whose timestamp exceeds
`latest_timestamp`. -/
theorem header_timestamps_not_min_max :
    (runAppends (SeqChunkBuffer.newBuffer 1 intervalOneSec)
      [(eventRecordAt 5, fun _ => []), (eventRecordAt 3, fun _ => [])]
      ).1.header.earliest_timestamp = ⟨5⟩ ∧
    (runAppends (SeqChunkBuffer.newBuffer 1 intervalOneSec)
      [(eventRecordAt 5, fun _ => []), (eventRecordAt 3, fun _ => [])]
      ).1.header.latest_timestamp = ⟨3⟩ ∧
    (runAppends (SeqChunkBuffer.newBuffer 1 intervalOneSec)
      [(eventRecordAt 5, fun _ => []), (eventRecordAt 3, fun _ => [])]
      ).1.record_count = 2 ∧
    ((runAppends (SeqChunkBuffer.newBuffer 1 intervalOneSec)
      [(eventRecordAt 5, fun _ => []), (eventRecordAt 3, fun _ => [])]
      ).1.records.map (fun r => r.meta.timestamp.micros)) = [5, 3] :=
  ⟨rfl, rfl, rfl, rfl⟩

/-- C6 amended: a persisting append sets `earliest_timestamp` to the
record's timestamp when it is the first persisted record and leaves it
unchanged otherwise, and sets `latest_timestamp` to the record's timestamp
unconditionally; consequently, when the appended records carry
non-decreasing timestamps, every persisted record's timestamp lies between
the final header's earliest and latest timestamps. -/
theorem append_record_header_update :
    (∀ (buf : Buffer) (record : Record) (get_objects : Resolver),
      (resolverPairs buf record get_objects).any
        (fun p => p.2.isNone) = false →
      (appendRecord buf record get_objects).record_count =
        buf.record_count + 1 ∧
      (appendRecord buf record get_objects).records =
        buf.records ++ [record] ∧
      (appendRecord buf record get_objects).header.earliest_timestamp =
        (if buf.record_count = 0 then record.meta.timestamp
         else buf.header.earliest_timestamp) ∧
      (appendRecord buf record get_objects).header.latest_timestamp =
        record.meta.timestamp) ∧
    (∀ (sid : SeqId) (interval : ChunkInterval)
      (appends : List (Record × Resolver)),
      (appends.map (fun a => a.1.meta.timestamp.micros)).Pairwise
        (· ≤ ·) →
      ∀ r ∈ (runAppends (SeqChunkBuffer.newBuffer sid interval)
          appends).1.records,
        (runAppends (SeqChunkBuffer.newBuffer sid interval)
            appends).1.header.earliest_timestamp.micros ≤
          r.meta.timestamp.micros ∧
        r.meta.timestamp.micros ≤
          (runAppends (SeqChunkBuffer.newBuffer sid interval)
            appends).1.header.latest_timestamp.micros) := by
  constructor
  · intro buf record get_objects hany
    have habort :
        (processObjects buf (resolverPairs buf record get_objects)).2 =
          false := by
      have := processObjects_aborts_iff buf
        (resolverPairs buf record get_objects)
      rw [hany] at this
      exact bool_false_of_not_true (by simp [this])
    exact appendRecord_persist_fields buf record get_objects habort
  · intro sid interval appends hpair
    have h := runAppends_inv appends
      (SeqChunkBuffer.newBuffer sid interval)
      (by constructor <;> intro <;> rfl)
      (by intro r hr
          exact absurd (show r ∈ ([] : List Record) from hr)
            (List.not_mem_nil r))
      (by intro a ha hne
          exact absurd
            (show (SeqChunkBuffer.newBuffer sid interval).records = []
              from rfl) hne)
      hpair
    exact h.2

/-- Witness for the C6 amended theorem: with events at timestamps 3 then 5
(non-decreasing), the final header bounds the timestamp 5 record. -/
theorem append_record_header_update_witness :
    (runAppends (SeqChunkBuffer.newBuffer 1 intervalOneSec)
        [(eventRecordAt 3, fun _ => []), (eventRecordAt 5, fun _ => [])]
      ).1.header.earliest_timestamp.micros ≤
      (eventRecordAt 5).meta.timestamp.micros ∧
    (eventRecordAt 5).meta.timestamp.micros ≤
      (runAppends (SeqChunkBuffer.newBuffer 1 intervalOneSec)
        [(eventRecordAt 3, fun _ => []), (eventRecordAt 5, fun _ => [])]
      ).1.header.latest_timestamp.micros :=
  append_record_header_update.2 1 intervalOneSec
    [(eventRecordAt 3, fun _ => []), (eventRecordAt 5, fun _ => [])]
    (by simp [eventRecordAt])
    (eventRecordAt 5)
    (show eventRecordAt 5 ∈ [eventRecordAt 3, eventRecordAt 5] from
      List.Mem.tail _ (List.Mem.head _))

/-- C9: when an append aborts on an unresolved iid, every object the
resolver returned as `Some` earlier in that same call stays inserted in
the `objects` map although the record itself is dropped. -/
theorem append_record_abort_keeps_resolved_objects (buf : Buffer)
    (record : Record) (get_objects : Resolver)
    (habort : (resolverPairs buf record get_objects).any
      (fun p => p.2.isNone) = true)
    (i : InstrumentationId) (o : Object)
    (hmem : (i, some o) ∈ (resolverPairs buf record get_objects).takeWhile
      (fun p => p.2.isSome)) :
    objectsLookup (appendRecord buf record get_objects).objects i =
      some o ∧
    (appendRecord buf record get_objects).records = buf.records := by
  have habort' :
      (processObjects buf (resolverPairs buf record get_objects)).2 =
        true :=
    (processObjects_aborts_iff _ _).mpr habort
  have happ := appendRecord_abort_eq buf record get_objects habort'
  have hnd : ((resolverPairs buf record get_objects).map Prod.fst).Nodup :=
    (missingTaskIds_nodup buf.objects record.data).sublist
      (map_fst_zip_sublist _ _)
  constructor
  · rw [happ]
    exact processObjects_lookup_prefix buf
      (resolverPairs buf record get_objects) hnd i o hmem
  · rw [happ]
    exact (processObjects_fields buf
      (resolverPairs buf record get_objects)).2.1

/-- Witness for C9: a `WakerWake{task_iid=1, context=2}` append whose
resolver answers `[Some task1, None]` drops the record but keeps task 1 in
the objects map, so the written sequence chunk contains one object and no
record referencing it. -/
theorem append_record_abort_keeps_resolved_objects_witness :
    objectsLookup (appendRecord (SeqChunkBuffer.newBuffer 1 intervalOneSec)
      ⟨⟨⟨9⟩⟩, RecordData.wakerWake ⟨1, some 2⟩⟩
      (fun _ => [some (Object.task taskObj1), none])).objects 1 =
      some (Object.task taskObj1) ∧
    (appendRecord (SeqChunkBuffer.newBuffer 1 intervalOneSec)
      ⟨⟨⟨9⟩⟩, RecordData.wakerWake ⟨1, some 2⟩⟩
      (fun _ => [some (Object.task taskObj1), none])).records = [] ∧
    (SeqChunkBuffer.write (appendRecord
      (SeqChunkBuffer.newBuffer 1 intervalOneSec)
      ⟨⟨⟨9⟩⟩, RecordData.wakerWake ⟨1, some 2⟩⟩
      (fun _ => [some (Object.task taskObj1), none]))).objects =
      [Object.task taskObj1] ∧
    (SeqChunkBuffer.write (appendRecord
      (SeqChunkBuffer.newBuffer 1 intervalOneSec)
      ⟨⟨⟨9⟩⟩, RecordData.wakerWake ⟨1, some 2⟩⟩
      (fun _ => [some (Object.task taskObj1), none]))).records = [] := by
  have h := append_record_abort_keeps_resolved_objects
    (SeqChunkBuffer.newBuffer 1 intervalOneSec)
    ⟨⟨⟨9⟩⟩, RecordData.wakerWake ⟨1, some 2⟩⟩
    (fun _ => [some (Object.task taskObj1), none]) rfl 1
    (Object.task taskObj1)
    (show (1, some (Object.task taskObj1)) ∈
        [(1, some (Object.task taskObj1))] from List.Mem.head _)
  exact ⟨h.1, h.2, rfl, rfl⟩

/-- C7: the per-task loop of `write_perfetto` starts in `Unknown` and its
derived state after any record list equals the fold of the claimed
transition table; moreover stepping `TaskPollStart` from
`IdleScheduled{w}` emits exactly a `SliceEnd` closing the scheduled
interval followed by the `SliceBegin` of the poll carrying `w` as its
terminating flow link. -/
theorem task_state_machine
    (tasks : List (InstrumentationId × TaskRecords)) (task : Task)
    (task_did track_uuid : Nat) (track_name : String)
    (records : List CRecord) (w : Nat) (r : CRecord)
    (iid : InstrumentationId) (hdata : r.data = CData.taskPollStart iid) :
    (processTaskRecords tasks task task_did track_uuid track_name
        TaskState.unknown records).1 =
      records.foldl (fun st rec => specTaskStep task_did rec.data st)
        TaskState.unknown ∧
    ∃ p1 p2,
      (processTaskRecord tasks task task_did track_uuid track_name
          (TaskState.idleScheduled w) r).2 =
        [TracePacket.trackEvent p1, TracePacket.trackEvent p2] ∧
      p1.eventType = TrackEventType.sliceEnd ∧
      "scheduled" ∈ p1.categories ∧
      p2.eventType = TrackEventType.sliceBegin ∧
      p2.terminatingFlowIds = [w] := by
  constructor
  · exact processTaskRecords_state tasks task task_did track_uuid
      track_name records TaskState.unknown
  · obtain ⟨rts, rdata⟩ := r
    simp only at hdata
    subst hdata
    exact ⟨_, _, rfl, rfl, List.Mem.head _, rfl, rfl⟩

/-- Witness for C7: one `TaskNew` record folds `Unknown` to `Idle`, and a
concrete `TaskPollStart` from `IdleScheduled{9}` emits the closing and
opening packets with terminating flow id 9. -/
theorem task_state_machine_witness :
    ((processTaskRecords [] taskObj1 1 3 "t" TaskState.unknown
        [⟨⟨0, 0⟩, CData.taskNew 1⟩]).1 =
      [(⟨⟨0, 0⟩, CData.taskNew 1⟩ : CRecord)].foldl
        (fun st rec => specTaskStep 1 rec.data st) TaskState.unknown) ∧
    ∃ p1 p2,
      (processTaskRecord [] taskObj1 1 3 "t"
          (TaskState.idleScheduled 9)
          ⟨⟨0, 0⟩, CData.taskPollStart 1⟩).2 =
        [TracePacket.trackEvent p1, TracePacket.trackEvent p2] ∧
      p1.eventType = TrackEventType.sliceEnd ∧
      "scheduled" ∈ p1.categories ∧
      p2.eventType = TrackEventType.sliceBegin ∧
      p2.terminatingFlowIds = [9] :=
  task_state_machine [] taskObj1 1 3 "t" [⟨⟨0, 0⟩, CData.taskNew 1⟩] 9
    ⟨⟨0, 0⟩, CData.taskPollStart 1⟩ 1 rfl

/-- C8: `write_perfetto` returns an error exactly when the largest
assigned dynamic id is at least `2 ^ 53`; the error depends only on
`largest_did` (the record content plays no part, so it surfaces before
any conversion work and the error case produces no packets); and the
flow-id fields decoded as in `impl Debug for FlowId` recover the spawn
flag (bit 63), the wake counter modulo `2 ^ 10` (bits 53-62) and the
dynamic id (bits 0-52). -/
theorem write_perfetto_error_and_flow_encoding :
    (∀ cd : CollectedData,
      ((∃ e, writePerfetto cd = Except.error e) ↔
        cd.largest_did ≥ 2 ^ 53)) ∧
    (∀ cd : CollectedData, cd.largest_did ≥ 2 ^ 53 →
      writePerfetto cd =
        writePerfetto { cd with tasks := [], sequences := [] }) ∧
    (∀ did : Nat, did < 2 ^ 53 →
      FlowId.isSpawn (FlowId.spawn did) = true ∧
      FlowId.wakeId (FlowId.spawn did) = 0 ∧
      FlowId.dynamicId (FlowId.spawn did) = did) ∧
    (∀ did wid : Nat, did < 2 ^ 53 →
      FlowId.isSpawn (FlowId.wake did wid) = false ∧
      FlowId.wakeId (FlowId.wake did wid) = wid % 1024 ∧
      (wid < 1024 → FlowId.wakeId (FlowId.wake did wid) = wid) ∧
      FlowId.dynamicId (FlowId.wake did wid) = did) := by
  refine ⟨?_, ?_, ?_, ?_⟩
  · intro cd
    constructor
    · rintro ⟨e, he⟩
      by_cases hge : cd.largest_did ≥ FlowId.maxDynamicId
      · rw [max_dynamic_id_eq] at hge
        exact hge
      · exfalso
        unfold writePerfetto at he
        rw [if_neg hge] at he
        exact Except.noConfusion he
    · intro hge
      unfold writePerfetto
      rw [if_pos (by rw [max_dynamic_id_eq]; exact hge)]
      exact ⟨_, rfl⟩
  · intro cd hge
    have hge' : cd.largest_did ≥ FlowId.maxDynamicId := by
      rw [max_dynamic_id_eq]
      exact hge
    unfold writePerfetto
    rw [if_pos hge',
      if_pos (show ({ cd with tasks := [], sequences := [] } :
        CollectedData).largest_did ≥ FlowId.maxDynamicId from hge')]
  · intro did hdid
    exact ⟨isSpawn_spawn did, wakeId_spawn did hdid,
      dynamicId_spawn did hdid⟩
  · intro did wid hdid
    refine ⟨isSpawn_wake did wid hdid, wakeId_wake did wid hdid, ?_,
      dynamicId_wake did wid hdid⟩
    intro hwid
    rw [wakeId_wake did wid hdid, Nat.mod_eq_of_lt hwid]

/-- Witness for C8 at `largest_did = 2 ^ 53` (error) and at the concrete
flow ids `spawn 5` and `wake 5 3`. -/
theorem write_perfetto_error_and_flow_encoding_witness :
    ((∃ e, writePerfetto ⟨[], [], 2 ^ 53⟩ = Except.error e) ↔
      (2 ^ 53 : Nat) ≥ 2 ^ 53) ∧
    (FlowId.isSpawn (FlowId.spawn 5) = true ∧
      FlowId.wakeId (FlowId.spawn 5) = 0 ∧
      FlowId.dynamicId (FlowId.spawn 5) = 5) ∧
    (FlowId.isSpawn (FlowId.wake 5 3) = false ∧
      FlowId.wakeId (FlowId.wake 5 3) = 3 % 1024 ∧
      ((3 : Nat) < 1024 → FlowId.wakeId (FlowId.wake 5 3) = 3) ∧
      FlowId.dynamicId (FlowId.wake 5 3) = 5) :=
  ⟨write_perfetto_error_and_flow_encoding.1 ⟨[], [], 2 ^ 53⟩,
    write_perfetto_error_and_flow_encoding.2.2.1 5 (by norm_num),
    write_perfetto_error_and_flow_encoding.2.2.2 5 3 (by norm_num)⟩

/-- C10: `FlowId::wake` masks the wake counter to its low 10 bits, so for
a fixed dynamic id two wakes with counters congruent modulo 1024 yield the
same flow id, and a counter that is a nonzero multiple of 1024 yields the
flow id of counter 0. -/
theorem flow_id_wake_masks_counter :
    (∀ did wid1 wid2 : Nat, wid1 % 1024 = wid2 % 1024 →
      FlowId.wake did wid1 = FlowId.wake did wid2) ∧
    (∀ did k : Nat, 0 < k →
      FlowId.wake did (1024 * k) = FlowId.wake did 0) := by
  constructor
  · intro did w1 w2 h
    rw [wake_eq, wake_eq, h]
  · intro did k _
    rw [wake_eq, wake_eq, Nat.mul_mod_right]

/-- Witness for C10: counters 1025 and 1 collide, and counter 2048
collides with counter 0, at dynamic id 7. -/
theorem flow_id_wake_masks_counter_witness :
    FlowId.wake 7 1025 = FlowId.wake 7 1 ∧
    FlowId.wake 7 (1024 * 2) = FlowId.wake 7 0 :=
  ⟨flow_id_wake_masks_counter.1 7 1025 1 (by norm_num),
    flow_id_wake_masks_counter.2 7 2 (by norm_num)⟩

end Rfr
